import Mathlib

/-!
Verification development for the CodeReview multi-agent review pipeline.

The Python sources under `src/` are shallowly embedded below:
pure functions become Lean functions, Python `dict`s become association
lists (with the relevant lookup direction made explicit), Python sets of
strings become deduplicated lists, IEEE floats that only ever hold short
decimal literals and are combined by `min`/`max`/`+`/`-`/`*`/comparison
are modelled as exact rationals (`ℚ`), and fallible constructors
(pydantic validation) return `Except`/`Option`.

Rational values are written with `mkRat` and combined with the helper
operations `qadd`, `qsub`, `qmul` below (proved equal to the ambient
field operations) so that every definition evaluates inside the kernel.
-/

namespace CodeReview

/-- Rational addition written so that it reduces in the kernel:
`mkRat` of the cross-multiplied numerators. -/
def qadd (a b : ℚ) : ℚ := mkRat (a.num * (b.den : ℤ) + b.num * (a.den : ℤ)) (a.den * b.den)

/-- Rational subtraction, kernel-reducible. -/
def qsub (a b : ℚ) : ℚ := mkRat (a.num * (b.den : ℤ) - b.num * (a.den : ℤ)) (a.den * b.den)

/-- Rational multiplication, kernel-reducible. -/
def qmul (a b : ℚ) : ℚ := mkRat (a.num * b.num) (a.den * b.den)

theorem qadd_eq (a b : ℚ) : qadd a b = a + b := by
  have ha : ((a.den : ℤ) : ℚ) ≠ 0 := by exact_mod_cast a.den_ne_zero
  have hb : ((b.den : ℤ) : ℚ) ≠ 0 := by exact_mod_cast b.den_ne_zero
  rw [qadd, Rat.mkRat_eq_div]
  conv_rhs => rw [← Rat.num_div_den a, ← Rat.num_div_den b]
  push_cast
  field_simp

theorem qsub_eq (a b : ℚ) : qsub a b = a - b := by
  have ha : ((a.den : ℤ) : ℚ) ≠ 0 := by exact_mod_cast a.den_ne_zero
  have hb : ((b.den : ℤ) : ℚ) ≠ 0 := by exact_mod_cast b.den_ne_zero
  rw [qsub, Rat.mkRat_eq_div]
  conv_rhs => rw [← Rat.num_div_den a, ← Rat.num_div_den b]
  push_cast
  field_simp
  ring

theorem qmul_eq (a b : ℚ) : qmul a b = a * b := by
  have ha : ((a.den : ℤ) : ℚ) ≠ 0 := by exact_mod_cast a.den_ne_zero
  have hb : ((b.den : ℤ) : ℚ) ≠ 0 := by exact_mod_cast b.den_ne_zero
  rw [qmul, Rat.mkRat_eq_div]
  conv_rhs => rw [← Rat.num_div_den a, ← Rat.num_div_den b]
  push_cast
  field_simp

/-- The kernel-reducible `Rat.ceil` agrees with Mathlib's `Int.ceil`. -/
theorem rat_ceil_eq_intCeil (q : ℚ) : Rat.ceil q = ⌈q⌉ := by
  by_cases hd : q.den = 1
  · have hq : ((q.num : ℤ) : ℚ) = q := by
      conv_rhs => rw [← Rat.num_div_den q]
      rw [hd]
      push_cast
      rw [div_one]
    rw [Rat.ceil, if_pos hd]
    conv_rhs => rw [← hq]
    rw [Int.ceil_intCast]
  · have hfloor : q.num / (q.den : ℤ) = ⌊q⌋ := (Rat.floor_def).symm
    rw [Rat.ceil, if_neg hd, hfloor]
    have hle : ⌈q⌉ ≤ ⌊q⌋ + 1 := Int.ceil_le_floor_add_one q
    have hge : ⌊q⌋ + 1 ≤ ⌈q⌉ := by
      rcases lt_or_eq_of_le (Int.floor_le_ceil q) with h | h
      · omega
      · exfalso
        have hqz : q = ((⌊q⌋ : ℤ) : ℚ) := by
          have h1 : ((⌊q⌋ : ℤ) : ℚ) ≤ q := Int.floor_le q
          have h2 : q ≤ ((⌈q⌉ : ℤ) : ℚ) := Int.le_ceil q
          rw [← h] at h2
          exact le_antisymm h2 h1
        have : q.den = 1 := by rw [hqz]; exact Rat.den_intCast _
        exact hd this
    omega

/-- Python `str.lower()` (ASCII case folding), implemented over the
character list so that it evaluates in the kernel. -/
def lower (s : String) : String := ⟨s.data.map Char.toLower⟩

/-- Python slicing `s[:n]`, counted in characters. -/
def str_take (s : String) (n : Nat) : String := ⟨s.data.take n⟩

/-- Python `len(s)`, counted in characters. -/
def str_len (s : String) : Nat := s.data.length

/-- Python substring test `needle in hay`. -/
def str_contains (hay needle : String) : Bool := decide (needle.data <:+: hay.data)

/-- Python `s.strip()`: drop whitespace from both ends. -/
def py_strip (s : String) : String :=
  ⟨((s.data.dropWhile Char.isWhitespace).reverse.dropWhile Char.isWhitespace).reverse⟩

/-- Python `s.startswith(p)`. -/
def str_startswith (s p : String) : Bool := decide (p.data <+: s.data)

/-- Python `s[n:]`: drop the first `n` characters. -/
def str_drop (s : String) (n : Nat) : String := ⟨s.data.drop n⟩

/-- Stable insertion step for `sort_by`: place `x` before the first
element `y` with `le x y`. -/
def sort_insert (le : α → α → Bool) (x : α) : List α → List α
  | [] => [x]
  | y :: ys => if le x y then x :: y :: ys else y :: sort_insert le x ys

/-- Model of Python's stable `sorted(l, key=...)`, as insertion sort with
a boolean `≤`-style comparison derived from the sort key. -/
def sort_by (le : α → α → Bool) : List α → List α
  | [] => []
  | x :: xs => sort_insert le x (sort_by le xs)

theorem mem_sort_insert (le : α → α → Bool) (x : α) (l : List α) (a : α) :
    a ∈ sort_insert le x l ↔ a = x ∨ a ∈ l := by
  induction l with
  | nil => simp [sort_insert]
  | cons y ys ih =>
    by_cases h : le x y = true
    · simp [sort_insert, h]
    · simp only [sort_insert, if_neg h, List.mem_cons, ih]
      tauto

theorem mem_sort_by (le : α → α → Bool) (l : List α) (a : α) :
    a ∈ sort_by le l ↔ a ∈ l := by
  induction l with
  | nil => simp [sort_by]
  | cons x xs ih => simp [sort_by, mem_sort_insert, ih]

theorem sort_insert_length (le : α → α → Bool) (x : α) (l : List α) :
    (sort_insert le x l).length = l.length + 1 := by
  induction l with
  | nil => simp [sort_insert]
  | cons y ys ih =>
    by_cases h : le x y = true
    · simp [sort_insert, h]
    · simp [sort_insert, h, ih]

theorem sort_by_length (le : α → α → Bool) (l : List α) :
    (sort_by le l).length = l.length := by
  induction l with
  | nil => rfl
  | cons x xs ih => simp [sort_by, sort_insert_length, ih]

theorem sort_by_perm (le : α → α → Bool) (l : List α) :
    (sort_by le l).Perm l := by
  induction l with
  | nil => simp [sort_by]
  | cons x xs ih =>
    have h : (sort_insert le x (sort_by le xs)).Perm (x :: sort_by le xs) := by
      clear ih
      induction sort_by le xs with
      | nil => simp [sort_insert]
      | cons y ys ih2 =>
        by_cases h : le x y = true
        · simp [sort_insert, h]
        · simp only [sort_insert, if_neg h]
          exact (ih2.cons y).trans (List.Perm.swap x y ys)
    exact h.trans (ih.cons x)

/-- The risk-type enumeration, with the member names used by every
consumer of the enum in `src/agents/nodes/manager.py` (lines 230 and
280–285 access exactly these six members).  The string values are the
spec's serialized enum values; `src/core/state.py` in this snapshot
still carries an older generation of the enum (different member names
and string values), which is the subject of claim C1 — see
`statePy_riskType_member_names` / `statePy_riskType_values` below. -/
inductive RiskType where
  | SYNTAX_STATIC_ERRORS
  | ROBUSTNESS_BOUNDARY_CONDITIONS
  | CONCURRENCY_TIMING_CORRECTNESS
  | AUTHORIZATION_DATA_EXPOSURE
  | INTENT_SEMANTIC_CONSISTENCY
  | LIFECYCLE_STATE_CONSISTENCY
deriving DecidableEq

/-- Serialized value of a risk-type member (Python `member.value`). -/
def RiskType.value : RiskType → String
  | .SYNTAX_STATIC_ERRORS => "syntax_static_errors"
  | .ROBUSTNESS_BOUNDARY_CONDITIONS => "robustness_boundary_conditions"
  | .CONCURRENCY_TIMING_CORRECTNESS => "concurrency_timing_correctness"
  | .AUTHORIZATION_DATA_EXPOSURE => "authorization_data_exposure"
  | .INTENT_SEMANTIC_CONSISTENCY => "intent_semantic_consistency"
  | .LIFECYCLE_STATE_CONSISTENCY => "lifecycle_state_consistency"

/-- Python `RiskType(s)`: look an enum member up by its value; `none`
models the `ValueError` raised for unknown values. -/
def risk_type_of_value (s : String) : Option RiskType :=
  if s = "syntax_static_errors" then some .SYNTAX_STATIC_ERRORS
  else if s = "robustness_boundary_conditions" then some .ROBUSTNESS_BOUNDARY_CONDITIONS
  else if s = "concurrency_timing_correctness" then some .CONCURRENCY_TIMING_CORRECTNESS
  else if s = "authorization_data_exposure" then some .AUTHORIZATION_DATA_EXPOSURE
  else if s = "intent_semantic_consistency" then some .INTENT_SEMANTIC_CONSISTENCY
  else if s = "lifecycle_state_consistency" then some .LIFECYCLE_STATE_CONSISTENCY
  else none

theorem risk_type_of_value_value (rt : RiskType) : risk_type_of_value rt.value = some rt := by
  cases rt <;> rfl

/-- Member names of `RiskType` as defined in `src/core/state.py`
(lines 30–35 of this snapshot). -/
def statePy_riskType_member_names : List String :=
  ["NULL_SAFETY", "CONCURRENCY", "SECURITY", "BUSINESS_INTENT", "LIFECYCLE", "SYNTAX"]

/-- String values of `RiskType` as defined in `src/core/state.py`. -/
def statePy_riskType_values : List String :=
  ["null_safety", "concurrency", "security", "business_intent", "lifecycle", "syntax"]

/-- The six enum values the spec lists for RiskType (section 3). -/
def spec_riskType_values : List String :=
  ["syntax_static_errors", "robustness_boundary_conditions", "concurrency_timing_correctness",
   "authorization_data_exposure", "intent_semantic_consistency", "lifecycle_state_consistency"]

/-- The `RiskType` member names that `src/agents/nodes/manager.py`
dereferences (lines 230, 280–285, 435). -/
def manager_referenced_member_names : List String :=
  ["SYNTAX_STATIC_ERRORS", "CONCURRENCY_TIMING_CORRECTNESS", "AUTHORIZATION_DATA_EXPOSURE",
   "LIFECYCLE_STATE_CONSISTENCY", "INTENT_SEMANTIC_CONSISTENCY", "ROBUSTNESS_BOUNDARY_CONDITIONS"]

/-- A risk item (`src/core/state.py`, class `RiskItem`): construction
goes through `normalize_line_number` and the pydantic field bounds, see
`mk_risk_item` below; this structure holds already-validated data. -/
structure RiskItem where
  risk_type : RiskType
  file_path : String
  line_number : Int × Int
  description : String
  confidence : ℚ
  severity : String
  suggestion : Option String
deriving DecidableEq

/-- Possible runtime shapes of the `line_number` argument reaching the
pydantic validator (Python is dynamically typed): an `int`, a
`list`/`tuple` of `int`s, or a value of any other type (represented by
its type name, which the validator only uses in its error message). -/
inductive LineNumberInput where
  | intVal (n : Int)
  | listVal (l : List Int)
  | otherVal (typeName : String)
deriving DecidableEq

/-- The `RiskItem.normalize_line_number` field validator
(`src/core/state.py` lines 59–99).  Accepts exactly a two-element
list/tuple `[start, end]` with `start ≤ end` and `start ≥ 1`; a single
integer, a list of any other length, and any other type raise
`ValueError` (modelled by `Except.error` with the message text). -/
def normalize_line_number : LineNumberInput → Except String (Int × Int)
  | .listVal [s, e] =>
      if s > e then
        .error ("start_line (" ++ toString s ++ ") must be <= end_line (" ++ toString e ++ ")")
      else if s < 1 then
        .error ("start_line (" ++ toString s ++ ") must be >= 1 (1-indexed)")
      else .ok (s, e)
  | .listVal l =>
      .error ("line_number must be a list/tuple of exactly 2 integers [start, end], got "
        ++ toString l.length ++ " element(s): " ++ toString l)
  | .intVal n =>
      .error ("line_number must be a list/tuple of 2 integers [start, end], not a single integer. "
        ++ "For single-line issues, use [line, line]. Got: " ++ toString n)
  | .otherVal tn =>
      .error ("line_number must be a list/tuple of 2 integers [start, end], got " ++ tn)

/-- Successful results of a fallible computation, dropping the error
message (Python: the value that survives the `try`). -/
def except_to_option : Except ε α → Option α
  | .ok a => some a
  | .error _ => none

/-- Pydantic construction of a `RiskItem`: `line_number` runs through
the validator and `confidence` must satisfy the declared field bounds
`0 ≤ confidence ≤ 1`; any validation error (`none`) is what Python
surfaces as a `ValidationError`. -/
def mk_risk_item (rt : RiskType) (fp : String) (ln : LineNumberInput) (desc : String)
    (conf : ℚ) (sev : String) (sug : Option String) : Option RiskItem :=
  (except_to_option (normalize_line_number ln)).bind (fun p =>
    if 0 ≤ conf ∧ conf ≤ 1 then
      some { risk_type := rt, file_path := fp, line_number := p, description := desc,
             confidence := conf, severity := sev, suggestion := sug }
    else none)

/-- A per-file intent-analysis result (`src/core/state.py`, class
`FileAnalysis`). -/
structure FileAnalysis where
  file_path : String
  intent_summary : String
  potential_risks : List RiskItem
  complexity_score : Option ℚ
deriving DecidableEq

/-- One lint error as received by the Manager (`lint_errors` entries are
plain dicts, so every field may be absent; `dict.get` defaults are
applied at the use sites). -/
structure LintError where
  file : Option String
  line : Option Int
  message : Option String
  severity : Option String
  code : Option String
deriving DecidableEq

/-- Path normalization shared by `manager.py` and
`intent_analysis_chunked.py` (`_normalize_path`): strip whitespace, then
a leading `a/`, `b/` or `/`. -/
def normalize_path (p : String) : String :=
  let s := py_strip p
  let s := if str_startswith s "a/" || str_startswith s "b/" then str_drop s 2 else s
  if str_startswith s "/" then str_drop s 1 else s

/-- The character class of `re.split(r"[^a-zA-Z0-9_]+", ...)`'s
complement: ASCII alphanumerics and underscore. -/
def word_char (c : Char) : Bool := c.isAlphanum || c = '_'

/-- Split a character list into maximal runs of word characters.  Runs
of separators contribute empty pieces; `tokenize` filters those out, so
after that filter this agrees with Python's `re.split` on the
non-word-character class. -/
def split_word_runs (l : List Char) : List (List Char) :=
  l.foldr (fun c acc =>
    match acc with
    | [] => if word_char c then [[c]] else [[]]
    | w :: ws => if word_char c then (c :: w) :: ws else [] :: w :: ws) [[]]

/-- `_tokenize` from `manager.py`: lowercase, split on non-word
characters, keep the non-empty parts as a set (here: a list
deduplicated in first-occurrence order). -/
def tokenize (s : String) : List String :=
  ((((split_word_runs (lower s).data).map (fun w => (⟨w⟩ : String))).filter
      (fun t => t ≠ "")).eraseDups)

/-- Set intersection on deduplicated string lists. -/
def list_inter (a b : List String) : List String := a.filter (fun x => decide (x ∈ b))

/-- Set union on deduplicated string lists. -/
def list_union (a b : List String) : List String := a ++ b.filter (fun x => decide (x ∉ a))

/-- `_jaccard` from `manager.py`: `len(a ∩ b) / len(a ∪ b)` with the
empty-set guards of the source. -/
def jaccard (a b : List String) : ℚ :=
  if a = [] ∨ b = [] then 0
  else
    let inter := list_inter a b
    let union := list_union a b
    if union = [] then 0 else mkRat inter.length union.length

/-- `_severity_rank` from `manager.py`. -/
def severity_rank (sev : String) : Int :=
  let s := lower (py_strip sev)
  if s = "error" then 3 else if s = "warning" then 2 else 1

/-- `_is_anchored_to_changes` from `manager.py` (lines 49–61).  The
source computes `idx = bisect_left(changed_lines_sorted, lo)` and tests
`idx < len ∧ changed_lines_sorted[idx] ≤ hi`; on the sorted lists the
caller passes, `bisect_left` returns the length of the prefix of
elements `< lo`, which is how it is written here. -/
def is_anchored_to_changes (changed_lines_sorted : List Int) (line_range : Int × Int)
    (window : Int) : Bool :=
  if changed_lines_sorted.isEmpty then false
  else
    match changed_lines_sorted.get?
        ((changed_lines_sorted.takeWhile
          (fun a => decide (a < max 1 (line_range.1 - window)))).length) with
    | some v => decide (v ≤ line_range.2 + window)
    | none => false

/-- Grouping key of `_merge_near_duplicates`: `(file_path, risk_type)`. -/
def merge_key (it : RiskItem) : String × RiskType := (it.file_path, it.risk_type)

/-- Sort order inside a merge group: ascending
`(line_number[0], line_number[1], -confidence)`. -/
def group_order_le (a b : RiskItem) : Bool :=
  if a.line_number.1 ≠ b.line_number.1 then decide (a.line_number.1 < b.line_number.1)
  else if a.line_number.2 ≠ b.line_number.2 then decide (a.line_number.2 < b.line_number.2)
  else decide (b.confidence ≤ a.confidence)

/-- The merge step of `_merge_near_duplicates`: union line range, max
confidence, stronger severity, concatenated descriptions (the source
keeps a list of descriptions and joins with blank lines, which equals
this accumulator form), suggestion cleared. -/
def merged_risk_item (cur it : RiskItem) : RiskItem :=
  { risk_type := cur.risk_type, file_path := cur.file_path,
    line_number := (min cur.line_number.1 it.line_number.1,
                    max cur.line_number.2 it.line_number.2),
    description := cur.description ++ "\n\n" ++ it.description,
    confidence := max cur.confidence it.confidence,
    severity := if severity_rank cur.severity ≥ severity_rank it.severity then cur.severity
                else it.severity,
    suggestion := none }

/-- The linear scan of `_merge_near_duplicates` over one sorted group,
carrying the current accumulator item `cur`. -/
def merge_scan (line_window : Int) (jt : ℚ) (cur : RiskItem) : List RiskItem → List RiskItem
  | [] => [cur]
  | it :: rest =>
    let d := it.line_number.1 - cur.line_number.2
    let near := decide ((if d < 0 then -d else d) ≤ line_window)
    let sim := jaccard (tokenize cur.description) (tokenize it.description)
    if near && decide (jt ≤ sim) then
      merge_scan line_window jt (merged_risk_item cur it) rest
    else cur :: merge_scan line_window jt it rest

/-- Merge one `(file_path, risk_type)` group after sorting. -/
def merge_group (line_window : Int) (jt : ℚ) (ordered : List RiskItem) : List RiskItem :=
  match ordered with
  | [] => []
  | h :: t => merge_scan line_window jt h t

/-- `_merge_near_duplicates` from `manager.py` (lines 73–125): group by
`(file_path, risk_type)` in first-occurrence order, sort each group,
scan-merge. -/
def merge_near_duplicates (items : List RiskItem) (line_window : Int) (jt : ℚ) :
    List RiskItem :=
  if items = [] then []
  else
    ((items.map merge_key).eraseDups).flatMap (fun k =>
      merge_group line_window jt
        (sort_by group_order_le (items.filter (fun it => decide (merge_key it = k)))))

/-- Python dict lookup with default 1.0 for the risk-type weight. -/
def type_weight (tw : List (String × ℚ)) (it : RiskItem) : ℚ :=
  ((tw.lookup it.risk_type.value).getD 1)

/-- Severity lookup key: `(it.severity or "warning").lower()`. -/
def sev_key (it : RiskItem) : String :=
  lower (if it.severity = "" then "warning" else it.severity)

/-- Python dict lookup with default 1.0 for the severity weight. -/
def severity_weight (sw : List (String × ℚ)) (it : RiskItem) : ℚ :=
  ((sw.lookup (sev_key it)).getD 1)

/-- The budgeting score `confidence * type_weight * severity_weight`. -/
def budget_score (tw sw : List (String × ℚ)) (it : RiskItem) : ℚ :=
  qmul (qmul it.confidence (type_weight tw it)) (severity_weight sw it)

/-- Strict lexicographic order on character lists (Python string `<`
compares code points). -/
def chars_lt : List Char → List Char → Bool
  | [], [] => false
  | [], _ :: _ => true
  | _ :: _, [] => false
  | a :: l1, b :: l2 =>
    if a.val < b.val then true else if b.val < a.val then false else chars_lt l1 l2

/-- Strict Python string comparison. -/
def str_lt (a b : String) : Bool := chars_lt a.data b.data

/-- Non-strict lexicographic order on integer pairs (Python tuple `≤`). -/
def int_pair_le (a b : Int × Int) : Bool :=
  if a.1 ≠ b.1 then decide (a.1 < b.1) else decide (a.2 ≤ b.2)

/-- The sort order of `_budget_work_items`: ascending
`(-score, -severity_rank, file_path, line_number)`. -/
def budget_order_le (tw sw : List (String × ℚ)) (a b : RiskItem) : Bool :=
  if budget_score tw sw a ≠ budget_score tw sw b then
    decide (budget_score tw sw b < budget_score tw sw a)
  else if severity_rank a.severity ≠ severity_rank b.severity then
    decide (severity_rank b.severity < severity_rank a.severity)
  else if a.file_path ≠ b.file_path then str_lt a.file_path b.file_path
  else int_pair_le a.line_number b.line_number

/-- Increment of a `defaultdict(int)` counter. -/
def bump : List (String × Nat) → String → List (String × Nat)
  | [], k => [(k, 1)]
  | (k', v) :: t, k => if k' = k then (k', v + 1) :: t else (k', v) :: bump t k

/-- The per-type cap test of `_budget_work_items`: `cap_t is not None
and per_type[...] >= cap_t`. -/
def per_type_capped (max_per_type pt : List (String × Nat)) (v : String) : Bool :=
  match max_per_type.lookup v with
  | some cap => decide ((pt.lookup v).getD 0 ≥ cap)
  | none => false

/-- The greedy selection loop of `_budget_work_items`, carrying the
number selected so far and the per-file / per-type counters. -/
def budget_pick (max_total max_per_file : Nat) (max_per_type : List (String × Nat)) :
    List RiskItem → Nat → List (String × Nat) → List (String × Nat) → List RiskItem
  | [], _, _, _ => []
  | it :: rest, cnt, pf, pt =>
    if cnt ≥ max_total then []
    else if (pf.lookup it.file_path).getD 0 ≥ max_per_file then
      budget_pick max_total max_per_file max_per_type rest cnt pf pt
    else if per_type_capped max_per_type pt it.risk_type.value then
      budget_pick max_total max_per_file max_per_type rest cnt pf pt
    else
      it :: budget_pick max_total max_per_file max_per_type rest (cnt + 1)
        (bump pf it.file_path) (bump pt it.risk_type.value)

/-- `_budget_work_items` from `manager.py` (lines 128–162). -/
def budget_work_items (items : List RiskItem) (max_total max_per_file : Nat)
    (max_per_type : List (String × Nat)) (tw sw : List (String × ℚ)) : List RiskItem :=
  if items = [] then []
  else budget_pick max_total max_per_file max_per_type
    (sort_by (budget_order_le tw sw) items) 0 [] []

/-- `_convert_lint_errors_to_risk_items`, single error
(`manager.py` lines 415–448).  `error.get("line", 1)` followed by
`int(line_number) if line_number else 1` maps both an absent and a
falsy (`0`/`None`) line to 1; construction failures (the per-item
`except`) yield `none` and the error is skipped. -/
def convert_lint_error (e : LintError) : Option RiskItem :=
  let file_path := e.file.getD ""
  let line_number := e.line.getD 1
  let message := e.message.getD ""
  let severity := e.severity.getD "error"
  let code := e.code.getD ""
  let description := if code = "" then message else "[" ++ code ++ "] " ++ message
  let line_num : Int := if line_number = 0 then 1 else line_number
  mk_risk_item .SYNTAX_STATIC_ERRORS file_path (.listVal [line_num, line_num]) description
    (mkRat 4 5) severity none

/-- `_convert_lint_errors_to_risk_items` over the whole list. -/
def convert_lint_errors_to_risk_items (lint_errors : List LintError) : List RiskItem :=
  lint_errors.filterMap convert_lint_error

/-- The changed-lines map `manager_node` builds from the parsed diff
(lines 202–210): keys are normalized paths (later entries overwrite
earlier ones, hence `getLast?`), values are `sorted(set(added ∪
modified))`; a missing file yields `[]`.  `contexts` is the output of
the external diff parser `parse_diff_with_line_numbers`, given as an
association list from raw path to the union of its added and modified
line numbers. -/
def changed_lines_map (contexts : List (String × List Int)) (fp : String) : List Int :=
  match (contexts.filter (fun p => decide (normalize_path p.1 = fp))).getLast? with
  | some p => sort_by (fun a b => decide (a ≤ b)) p.2.eraseDups
  | none => []

/-- The anchor hard-filter of `manager_node` (lines 224–256):
`syntax_static_errors` items bypass the filter; anchored items are
kept; unanchored items are dropped, or kept with confidence capped at
`unanchored_cap` and suggestion cleared when `drop_unanchored` is
false. -/
def manager_anchor_filter (raw_items : List RiskItem) (changed : String → List Int)
    (window : Int) (drop_unanchored : Bool) (unanchored_cap : ℚ) : List RiskItem :=
  raw_items.filterMap (fun it =>
    if it.risk_type = .SYNTAX_STATIC_ERRORS then some it
    else
      let ch := changed (normalize_path it.file_path)
      if is_anchored_to_changes ch it.line_number window then some it
      else if drop_unanchored then none
      else some { it with confidence := min it.confidence unanchored_cap, suggestion := none })

/-- `manager_node`'s initial collection of candidate risks (lines
212–222): all `potential_risks` of the file analyses followed by the
converted lint errors. -/
def manager_collect_raw_items (file_analyses : List FileAnalysis)
    (lint_errors : List LintError) : List RiskItem :=
  (file_analyses.flatMap (fun fa => fa.potential_risks))
    ++ convert_lint_errors_to_risk_items lint_errors

/-- Default risk-type weights of `manager_node` (lines 279–286). -/
def manager_default_type_weights : List (String × ℚ) :=
  [("syntax_static_errors", mkRat 14 10), ("concurrency_timing_correctness", mkRat 13 10),
   ("authorization_data_exposure", mkRat 13 10), ("lifecycle_state_consistency", mkRat 11 10),
   ("intent_semantic_consistency", 1), ("robustness_boundary_conditions", mkRat 7 10)]

/-- Default severity weights of `manager_node` (line 288). -/
def manager_default_severity_weights : List (String × ℚ) :=
  [("error", mkRat 13 10), ("warning", 1), ("info", mkRat 7 10)]

/-- The Manager's work list (`manager_node`, lines 224–297): anchor
filter, near-duplicate merge, budgeting. -/
def manager_work_list (file_analyses : List FileAnalysis) (lint_errors : List LintError)
    (contexts : List (String × List Int)) (window : Int) (drop_unanchored : Bool)
    (unanchored_cap : ℚ) (merge_line_window : Int) (merge_jaccard : ℚ)
    (max_total max_per_file : Nat) (max_per_type : List (String × Nat))
    (tw sw : List (String × ℚ)) : List RiskItem :=
  budget_work_items
    (merge_near_duplicates
      (manager_anchor_filter (manager_collect_raw_items file_analyses lint_errors)
        (changed_lines_map contexts) window drop_unanchored unanchored_cap)
      merge_line_window merge_jaccard)
    max_total max_per_file max_per_type tw sw

theorem str_append_data (a b : String) : (a ++ b).data = a.data ++ b.data := rfl

theorem dropWhile_head_not (p : α → Bool) (l : List α) (v : α)
    (h : (l.dropWhile p).head? = some v) : p v = false := by
  induction l with
  | nil => simp [List.dropWhile] at h
  | cons a t ih =>
    by_cases hp : p a = true
    · rw [List.dropWhile_cons, if_pos hp] at h
      exact ih h
    · rw [List.dropWhile_cons, if_neg hp] at h
      simp at h
      rw [← h]
      simpa using hp

theorem get_takeWhile_length (p : α → Bool) (l : List α) :
    l.get? (l.takeWhile p).length = (l.dropWhile p).head? := by
  induction l with
  | nil => simp [List.takeWhile, List.dropWhile]
  | cons a t ih =>
    by_cases hp : p a = true
    · rw [List.takeWhile_cons, if_pos hp, List.dropWhile_cons, if_pos hp]
      simpa using ih
    · rw [List.takeWhile_cons, if_neg hp, List.dropWhile_cons, if_neg hp]
      rfl

/-- The claim's anchoring relation: some changed line of the file falls
inside the window `[start − W, end + W]`. -/
def anchored_near_changes (changed : List Int) (r : Int × Int) (w : Int) : Prop :=
  ∃ c ∈ changed, r.1 - w ≤ c ∧ c ≤ r.2 + w

theorem is_anchored_exists (l : List Int) (r : Int × Int) (w : Int)
    (h : is_anchored_to_changes l r w = true) : anchored_near_changes l r w := by
  unfold is_anchored_to_changes at h
  by_cases he : l.isEmpty
  · simp [he] at h
  · rw [if_neg he] at h
    cases hg : l.get? ((l.takeWhile (fun a => decide (a < max 1 (r.1 - w)))).length) with
    | none => rw [hg] at h; simp at h
    | some v =>
      rw [hg] at h
      simp only [decide_eq_true_eq] at h
      have hv : v ∈ l := List.get?_mem hg
      have hd : (l.dropWhile (fun a => decide (a < max 1 (r.1 - w)))).head? = some v := by
        rw [← get_takeWhile_length]; exact hg
      have hnot := dropWhile_head_not _ _ _ hd
      simp only [decide_eq_false_iff_not, not_lt] at hnot
      exact ⟨v, hv, le_trans (le_max_right 1 (r.1 - w)) hnot, h⟩

/-- The invariant claim C3 asserts of every Manager output item. -/
def anchor_invariant (changed : String → List Int) (w : Int) (drop : Bool) (cap : ℚ)
    (it : RiskItem) : Prop :=
  it.risk_type ≠ .SYNTAX_STATIC_ERRORS →
    (anchored_near_changes (changed (normalize_path it.file_path)) it.line_number w
     ∨ (drop = false ∧ it.confidence ≤ cap))

theorem anchor_invariant_merged (changed : String → List Int) (w : Int) (drop : Bool)
    (cap : ℚ) (cur it : RiskItem) (hfp : it.file_path = cur.file_path)
    (hrt : it.risk_type = cur.risk_type)
    (hc : anchor_invariant changed w drop cap cur)
    (hi : anchor_invariant changed w drop cap it) :
    anchor_invariant changed w drop cap (merged_risk_item cur it) := by
  intro hne
  have hne' : cur.risk_type ≠ .SYNTAX_STATIC_ERRORS := hne
  rcases hc hne' with hanch | hcap
  · left
    obtain ⟨c, hmem, h1, h2⟩ := hanch
    refine ⟨c, hmem, ?_, ?_⟩
    · calc (merged_risk_item cur it).line_number.1 - w
          ≤ cur.line_number.1 - w := by
            simp only [merged_risk_item]
            omega
        _ ≤ c := h1
    · calc c ≤ cur.line_number.2 + w := h2
        _ ≤ (merged_risk_item cur it).line_number.2 + w := by
            simp only [merged_risk_item]
            omega
  · rcases hi (hrt ▸ hne') with hanch | hcap2
    · left
      obtain ⟨c, hmem, h1, h2⟩ := hanch
      rw [hfp] at hmem
      refine ⟨c, by simpa [merged_risk_item] using hmem, ?_, ?_⟩
      · calc (merged_risk_item cur it).line_number.1 - w
            ≤ it.line_number.1 - w := by
              simp only [merged_risk_item]
              omega
          _ ≤ c := h1
      · calc c ≤ it.line_number.2 + w := h2
          _ ≤ (merged_risk_item cur it).line_number.2 + w := by
              simp only [merged_risk_item]
              omega
    · right
      exact ⟨hcap.1, by simp only [merged_risk_item]; exact max_le hcap.2 hcap2.2⟩

theorem anchor_invariant_merge_scan (changed : String → List Int) (w : Int) (drop : Bool)
    (cap : ℚ) (lw : Int) (jt : ℚ) (l : List RiskItem) :
    ∀ cur : RiskItem, anchor_invariant changed w drop cap cur →
    (∀ x ∈ l, anchor_invariant changed w drop cap x) →
    (∀ x ∈ l, x.file_path = cur.file_path ∧ x.risk_type = cur.risk_type) →
    ∀ y ∈ merge_scan lw jt cur l, anchor_invariant changed w drop cap y := by
  induction l with
  | nil =>
    intro cur hcur _ _ y hy
    simp [merge_scan] at hy
    exact hy ▸ hcur
  | cons it rest ih =>
    intro cur hcur hall hkey y hy
    rw [merge_scan] at hy
    by_cases hcond : ((decide ((if it.line_number.1 - cur.line_number.2 < 0 then
        -(it.line_number.1 - cur.line_number.2) else it.line_number.1 - cur.line_number.2) ≤ lw))
        && decide (jt ≤ jaccard (tokenize cur.description) (tokenize it.description))) = true
    · rw [if_pos hcond] at hy
      have hkh := hkey it (by simp)
      have hmerged := anchor_invariant_merged changed w drop cap cur it hkh.1 hkh.2 hcur
        (hall it (by simp))
      refine ih (merged_risk_item cur it) hmerged
        (fun x hx => hall x (by simp [hx])) (fun x hx => ?_) y hy
      have := hkey x (by simp [hx])
      simpa [merged_risk_item] using this
    · rw [if_neg hcond] at hy
      rcases List.mem_cons.mp hy with h | h
      · exact h ▸ hcur
      · refine ih it (hall it (by simp)) (fun x hx => hall x (by simp [hx]))
          (fun x hx => ?_) y h
        have h1 := hkey x (by simp [hx])
        have h2 := hkey it (by simp)
        exact ⟨h1.1.trans h2.1.symm, h1.2.trans h2.2.symm⟩

theorem anchor_invariant_merge (changed : String → List Int) (w : Int) (drop : Bool)
    (cap : ℚ) (items : List RiskItem) (lw : Int) (jt : ℚ)
    (hall : ∀ x ∈ items, anchor_invariant changed w drop cap x) :
    ∀ y ∈ merge_near_duplicates items lw jt, anchor_invariant changed w drop cap y := by
  intro y hy
  unfold merge_near_duplicates at hy
  by_cases hne : items = []
  · simp [hne] at hy
  · rw [if_neg hne] at hy
    obtain ⟨k, _, hyk⟩ := List.mem_flatMap.mp hy
    set grp := sort_by group_order_le (items.filter (fun it => decide (merge_key it = k)))
      with hgrp
    have hgrp_mem : ∀ x ∈ grp, x ∈ items ∧ merge_key x = k := by
      intro x hx
      rw [hgrp, mem_sort_by] at hx
      have := List.mem_filter.mp hx
      exact ⟨this.1, by simpa using this.2⟩
    cases hg : grp with
    | nil => rw [hg] at hyk; simp [merge_group] at hyk
    | cons h t =>
      rw [hg] at hyk
      rw [merge_group] at hyk
      have hh := hgrp_mem h (by rw [hg]; simp)
      refine anchor_invariant_merge_scan changed w drop cap lw jt t h
        (hall h hh.1) (fun x hx => hall x (hgrp_mem x (by rw [hg]; simp [hx])).1)
        (fun x hx => ?_) y hyk
      have hx' := hgrp_mem x (by rw [hg]; simp [hx])
      have : merge_key x = merge_key h := hx'.2.trans hh.2.symm
      exact ⟨congrArg Prod.fst this, congrArg Prod.snd this⟩

theorem budget_pick_subset (mt mpf : Nat) (mpt : List (String × Nat)) :
    ∀ (l : List RiskItem) (cnt : Nat) (pf pt : List (String × Nat)),
    ∀ y ∈ budget_pick mt mpf mpt l cnt pf pt, y ∈ l := by
  intro l
  induction l with
  | nil => intro cnt pf pt y hy; simp [budget_pick] at hy
  | cons it rest ih =>
    intro cnt pf pt y hy
    rw [budget_pick] at hy
    by_cases h1 : cnt ≥ mt
    · rw [if_pos h1] at hy; simp at hy
    · rw [if_neg h1] at hy
      by_cases h2 : (pf.lookup it.file_path).getD 0 ≥ mpf
      · rw [if_pos h2] at hy
        exact List.mem_cons_of_mem _ (ih cnt pf pt y hy)
      · rw [if_neg h2] at hy
        by_cases h3 : per_type_capped mpt pt it.risk_type.value = true
        · rw [if_pos h3] at hy
          exact List.mem_cons_of_mem _ (ih cnt pf pt y hy)
        · rw [if_neg h3] at hy
          rcases List.mem_cons.mp hy with h | h
          · simp [h]
          · exact List.mem_cons_of_mem _ (ih _ _ _ y h)

theorem budget_work_items_subset (items : List RiskItem) (mt mpf : Nat)
    (mpt : List (String × Nat)) (tw sw : List (String × ℚ)) :
    ∀ y ∈ budget_work_items items mt mpf mpt tw sw, y ∈ items := by
  intro y hy
  unfold budget_work_items at hy
  by_cases h : items = []
  · simp [h] at hy
  · rw [if_neg h] at hy
    have := budget_pick_subset mt mpf mpt _ 0 [] [] y hy
    rwa [mem_sort_by] at this

theorem anchor_filter_invariant (raw : List RiskItem) (changed : String → List Int)
    (w : Int) (drop : Bool) (cap : ℚ) :
    ∀ y ∈ manager_anchor_filter raw changed w drop cap,
      anchor_invariant changed w drop cap y := by
  intro y hy
  unfold manager_anchor_filter at hy
  obtain ⟨x, _, hfx⟩ := List.mem_filterMap.mp hy
  by_cases hrt : x.risk_type = .SYNTAX_STATIC_ERRORS
  · rw [if_pos hrt] at hfx
    intro hne
    exact absurd ((Option.some.injEq _ _).mp hfx ▸ hrt) hne
  · rw [if_neg hrt] at hfx
    by_cases hanch : is_anchored_to_changes (changed (normalize_path x.file_path))
        x.line_number w = true
    · rw [if_pos hanch] at hfx
      have hyx : y = x := ((Option.some.injEq _ _).mp hfx).symm
      intro _
      left
      rw [hyx]
      exact is_anchored_exists _ _ _ hanch
    · rw [if_neg hanch] at hfx
      by_cases hdrop : drop = true
      · rw [if_pos hdrop] at hfx
        simp at hfx
      · rw [if_neg hdrop] at hfx
        have hyx : y = { x with confidence := min x.confidence cap, suggestion := none } :=
          ((Option.some.injEq _ _).mp hfx).symm
        intro _
        right
        refine ⟨by simpa using hdrop, ?_⟩
        rw [hyx]
        exact min_le_right _ _

/-- C3: every item of the Manager's output work list whose risk type is
not `syntax_static_errors` has its window `[start − W, end + W]`
intersect the changed lines of its (normalized) file path under the
provided diff, or — when `manager_drop_unanchored` is false — was kept
with its confidence capped at `manager_unanchored_confidence`. -/
theorem c3_manager_output_anchored (file_analyses : List FileAnalysis)
    (lint_errors : List LintError) (contexts : List (String × List Int)) (window : Int)
    (drop_unanchored : Bool) (unanchored_cap : ℚ) (merge_line_window : Int)
    (merge_jaccard : ℚ) (max_total max_per_file : Nat) (max_per_type : List (String × Nat))
    (tw sw : List (String × ℚ)) :
    ∀ it ∈ manager_work_list file_analyses lint_errors contexts window drop_unanchored
        unanchored_cap merge_line_window merge_jaccard max_total max_per_file max_per_type
        tw sw,
      it.risk_type ≠ .SYNTAX_STATIC_ERRORS →
        anchored_near_changes (changed_lines_map contexts (normalize_path it.file_path))
          it.line_number window
        ∨ (drop_unanchored = false ∧ it.confidence ≤ unanchored_cap) := by
  intro it hit
  unfold manager_work_list at hit
  have h1 := budget_work_items_subset _ _ _ _ _ _ it hit
  exact anchor_invariant_merge (changed_lines_map contexts) window drop_unanchored
    unanchored_cap _ _ _
    (anchor_filter_invariant _ (changed_lines_map contexts) window drop_unanchored
      unanchored_cap) it h1

theorem convert_lint_error_eq (e : LintError) (fp : String) (n : Int) (m s c : String)
    (hf : e.file = some fp) (hl : e.line = some n) (hm : e.message = some m)
    (hs : e.severity = some s) (hc : e.code = some c) (hn : 1 ≤ n) :
    convert_lint_error e = some
      { risk_type := .SYNTAX_STATIC_ERRORS, file_path := fp, line_number := (n, n),
        description := if c = "" then m else "[" ++ c ++ "] " ++ m,
        confidence := mkRat 4 5, severity := s, suggestion := none } := by
  have hnorm : normalize_line_number (.listVal [n, n]) = .ok (n, n) := by
    simp only [normalize_line_number]
    rw [if_neg (show ¬(n > n) by omega), if_neg (show ¬(n < 1) by omega)]
  unfold convert_lint_error mk_risk_item
  rw [hf, hl, hm, hs, hc]
  simp only [Option.getD_some]
  rw [if_neg (show ¬(n = 0) by omega), hnorm]
  simp only [except_to_option, Option.some_bind]
  rw [if_pos (show (0 : ℚ) ≤ mkRat 4 5 ∧ (mkRat 4 5 : ℚ) ≤ 1 by constructor <;> decide)]

/-- C2: every lint error with its fields present and a valid (1-based)
line number contributes a RiskItem of type `syntax_static_errors` to
the Manager's collected risks, with confidence 0.8, the lint error's
severity, line range `[line, line]`, no suggestion, and a description
containing the lint code and message. -/
theorem c2_lint_errors_become_syntax_risks (file_analyses : List FileAnalysis)
    (lint_errors : List LintError) (e : LintError) (fp : String) (n : Int) (m s c : String)
    (he : e ∈ lint_errors) (hf : e.file = some fp) (hl : e.line = some n)
    (hm : e.message = some m) (hs : e.severity = some s) (hc : e.code = some c)
    (hn : 1 ≤ n) :
    ∃ item ∈ manager_collect_raw_items file_analyses lint_errors,
      item.risk_type = .SYNTAX_STATIC_ERRORS ∧ item.file_path = fp ∧
      item.line_number = (n, n) ∧ item.confidence = mkRat 4 5 ∧ item.severity = s ∧
      item.suggestion = none ∧ c.data <:+: item.description.data ∧
      m.data <:+: item.description.data := by
  refine ⟨⟨.SYNTAX_STATIC_ERRORS, fp, (n, n),
    if c = "" then m else "[" ++ c ++ "] " ++ m, mkRat 4 5, s, none⟩, ?_, rfl, rfl, rfl,
    rfl, rfl, rfl, ?_, ?_⟩
  · unfold manager_collect_raw_items convert_lint_errors_to_risk_items
    exact List.mem_append_right _
      (List.mem_filterMap.mpr ⟨e, he, convert_lint_error_eq e fp n m s c hf hl hm hs hc hn⟩)
  · by_cases hce : c = ""
    · simp [hce]
    · rw [if_neg hce]
      exact ⟨"[".data, ("] " ++ m).data, by simp [str_append_data]⟩
  · by_cases hce : c = ""
    · simp [hce]
    · rw [if_neg hce]
      exact ⟨("[" ++ c ++ "] ").data, [], by simp [str_append_data]⟩

/-- The lint error of end-to-end scenario S2. -/
def s2_lint_error : LintError :=
  { file := some "src/a.py", line := some 3, message := some "undefined",
    severity := some "error", code := some "E0602" }

/-- Witness for C2 at scenario S2's lint error. -/
theorem c2_witness :
    s2_lint_error ∈ [s2_lint_error] ∧ s2_lint_error.file = some "src/a.py" ∧
    s2_lint_error.line = some 3 ∧ s2_lint_error.message = some "undefined" ∧
    s2_lint_error.severity = some "error" ∧ s2_lint_error.code = some "E0602" ∧
    (1 : Int) ≤ 3 ∧
    ∃ item ∈ manager_collect_raw_items [] [s2_lint_error],
      item.risk_type = .SYNTAX_STATIC_ERRORS ∧ item.file_path = "src/a.py" ∧
      item.line_number = (3, 3) ∧ item.confidence = mkRat 4 5 ∧ item.severity = "error" ∧
      item.suggestion = none ∧ ("E0602" : String).data <:+: item.description.data ∧
      ("undefined" : String).data <:+: item.description.data :=
  ⟨List.mem_singleton.mpr rfl, rfl, rfl, rfl, rfl, rfl, by decide,
    c2_lint_errors_become_syntax_risks [] [s2_lint_error] s2_lint_error "src/a.py" 3
      "undefined" "error" "E0602" (List.mem_singleton.mpr rfl) rfl rfl rfl rfl rfl
      (by decide)⟩

/-- A sample non-syntax risk item anchored at line 3. -/
def s_anchored_item : RiskItem :=
  { risk_type := .ROBUSTNESS_BOUNDARY_CONDITIONS, file_path := "a.py", line_number := (3, 3),
    description := "possible off-by-one", confidence := mkRat 9 10, severity := "warning",
    suggestion := none }

/-- Witness for C3: a single anchored robustness item survives the
Manager pipeline and satisfies the anchoring invariant. -/
theorem c3_witness :
    s_anchored_item ∈ manager_work_list
        [{ file_path := "a.py", intent_summary := "", potential_risks := [s_anchored_item],
           complexity_score := none }] [] [("a.py", [3])] 5 true (mkRat 1 5) 5 (mkRat 3 4)
        30 6 [] manager_default_type_weights manager_default_severity_weights ∧
    s_anchored_item.risk_type ≠ RiskType.SYNTAX_STATIC_ERRORS ∧
    (anchored_near_changes (changed_lines_map [("a.py", [3])]
        (normalize_path s_anchored_item.file_path)) s_anchored_item.line_number 5
      ∨ (true = false ∧ s_anchored_item.confidence ≤ mkRat 1 5)) :=
  ⟨by decide, by decide,
    c3_manager_output_anchored
      [{ file_path := "a.py", intent_summary := "", potential_risks := [s_anchored_item],
         complexity_score := none }] [] [("a.py", [3])] 5 true (mkRat 1 5) 5 (mkRat 3 4)
      30 6 [] manager_default_type_weights manager_default_severity_weights
      s_anchored_item (by decide) (by decide)⟩

/-- C4 counterexample: the validator rejects a single integer `5`, a
one-element list `[3]`, and even the ordered pair `[0, 2]`, all of
which the claim says are accepted. -/
theorem c4_counterexample :
    (normalize_line_number (.intVal 5)).toOption = none ∧
    (normalize_line_number (.listVal [3])).toOption = none ∧
    (normalize_line_number (.listVal [0, 2])).toOption = none := by
  refine ⟨rfl, rfl, rfl⟩

/-- C4 amended: `line_number` normalization accepts exactly the
two-element lists `[a, b]` with `1 ≤ a ≤ b`, returning `(a, b)`; single
integers, one-element lists, and every other input are rejected. -/
theorem c4_line_number_normalization (v : LineNumberInput) (p : Int × Int) :
    normalize_line_number v = .ok p ↔
      v = .listVal [p.1, p.2] ∧ 1 ≤ p.1 ∧ p.1 ≤ p.2 := by
  constructor
  · intro h
    match v with
    | .intVal n => simp [normalize_line_number] at h
    | .otherVal t => simp [normalize_line_number] at h
    | .listVal [] => simp [normalize_line_number] at h
    | .listVal [a] => simp [normalize_line_number] at h
    | .listVal (a :: b :: x :: t) => simp [normalize_line_number] at h
    | .listVal [a, b] =>
      rw [normalize_line_number] at h
      by_cases h1 : a > b
      · rw [if_pos h1] at h; exact absurd h (by simp)
      · rw [if_neg h1] at h
        by_cases h2 : a < 1
        · rw [if_pos h2] at h; exact absurd h (by simp)
        · rw [if_neg h2] at h
          have hp : p = (a, b) := by
            have := (Except.ok.injEq _ _).mp h
            exact this.symm
          subst hp
          exact ⟨rfl, by omega, by omega⟩
  · rintro ⟨hv, h1, h2⟩
    subst hv
    rw [normalize_line_number]
    rw [if_neg (show ¬(p.1 > p.2) by omega), if_neg (show ¬(p.1 < 1) by omega)]

/-- C1 (evidence of the enum divergence): every risk type used by the
pipeline serializes to one of the six values the claim lists, but none
of those six values — nor any of the member names `manager.py`
dereferences — exists on the `RiskType` enum that `src/core/state.py`
actually defines.  Hence `manager_node`'s accesses such as
`RiskType.SYNTAX_STATIC_ERRORS` raise `AttributeError` against that
definition: the two files contradict each other. -/
theorem c1_risk_type_enum_divergence :
    (∀ r : RiskType, r.value ∈ spec_riskType_values) ∧
    (∀ v ∈ spec_riskType_values, v ∉ statePy_riskType_values) ∧
    (∀ m ∈ manager_referenced_member_names, m ∉ statePy_riskType_member_names) := by
  refine ⟨fun r => ?_, by decide, by decide⟩
  cases r <;> decide

/-- The shapes of the `line_number` JSON field relevant to
`_parse_expert_response`, as a `LineNumberInput`, plus the JSON object
fields the parser reads with `data.get(...)`: `none` models an absent
key.  For `suggestion`, `some none` models a present JSON `null`. -/
structure ExpertJson where
  risk_type : Option String
  file_path : Option String
  line_number : Option LineNumberInput
  description : Option String
  confidence : Option ℚ
  severity : Option String
  suggestion : Option (Option String)
deriving DecidableEq

/-- Outcome of `json.loads` on the fence-stripped expert response
(`_parse_expert_response`, `expert_execution.py` lines 594–606): either
a JSON object with the fields above, or a `JSONDecodeError`, in which
case the original raw response text drives the heuristic branch. -/
inductive ExpertResponse where
  | jsonObj (d : ExpertJson)
  | text (raw : String)
deriving DecidableEq

/-- `_parse_expert_response` (`expert_execution.py` lines 584–647).
On parsed JSON it rebuilds the `RiskItem` with `data.get(k, original)`
defaults; an unknown `risk_type`, an invalid `line_number`, or an
out-of-range `confidence` raises inside the outer `try` and the
original item is returned unchanged.  On a `JSONDecodeError` the
heuristic branch keeps the item's identity and moves its confidence by
±0.2 depending on whether the lowercased response contains
"confirmed" or "valid". -/
def parse_expert_response : ExpertResponse → RiskItem → RiskItem
  | .jsonObj d, orig =>
    (((risk_type_of_value (d.risk_type.getD orig.risk_type.value)).bind (fun rt =>
      (except_to_option (normalize_line_number
          (d.line_number.getD (.listVal [orig.line_number.1, orig.line_number.2])))).bind
        (fun ln =>
          if 0 ≤ d.confidence.getD orig.confidence ∧ d.confidence.getD orig.confidence ≤ 1
          then
            some { risk_type := rt, file_path := d.file_path.getD orig.file_path,
                   line_number := ln, description := d.description.getD orig.description,
                   confidence := d.confidence.getD orig.confidence,
                   severity := d.severity.getD orig.severity,
                   suggestion := (match d.suggestion with
                     | some v => v
                     | none => orig.suggestion) }
          else none)))).getD orig
  | .text raw, orig =>
    if str_contains (lower raw) "confirmed" || str_contains (lower raw) "valid" then
      { orig with
        confidence := min 1 (qadd orig.confidence (mkRat 1 5)),
        suggestion := (match orig.suggestion with
          | some s => if s = "" then some (str_take raw 200) else some s
          | none => some (str_take raw 200)) }
    else
      { orig with confidence := max 0 (qsub orig.confidence (mkRat 1 5)) }

/-- C5 counterexample: a parseable expert response that explicitly
supplies a different `file_path` makes the verdict's `file_path`
diverge from the input task's, contradicting the claim that the
verdict's `file_path` always equals the input's. -/
theorem c5_counterexample :
    (parse_expert_response
      (.jsonObj { risk_type := none, file_path := some "other.py", line_number := none,
                  description := none, confidence := none, severity := none,
                  suggestion := none })
      { risk_type := .AUTHORIZATION_DATA_EXPOSURE, file_path := "a.py",
        line_number := (2, 4), description := "token leak", confidence := mkRat 1 2,
        severity := "warning", suggestion := none }).file_path = "other.py" ∧
    "other.py" ≠ "a.py" := by
  constructor
  · rfl
  · decide

/-- C5 amended: an expert verdict's `risk_type` equals the input's
unless the model explicitly supplies a known enum value (in which case
it is that value), and its `file_path` equals the input's unless the
model explicitly supplies a `file_path` in parseable JSON (in which
case it is the supplied string). -/
theorem c5_verdict_identity (resp : ExpertResponse) (orig : RiskItem) :
    ((parse_expert_response resp orig).risk_type = orig.risk_type ∨
      (∃ d s, resp = .jsonObj d ∧ d.risk_type = some s ∧
        risk_type_of_value s = some (parse_expert_response resp orig).risk_type)) ∧
    ((parse_expert_response resp orig).file_path = orig.file_path ∨
      (∃ d s, resp = .jsonObj d ∧ d.file_path = some s ∧
        (parse_expert_response resp orig).file_path = s)) := by
  cases resp with
  | text raw =>
    simp only [parse_expert_response]
    by_cases h : (str_contains (lower raw) "confirmed" || str_contains (lower raw) "valid")
        = true
    · rw [if_pos h]
      exact ⟨Or.inl rfl, Or.inl rfl⟩
    · rw [if_neg h]
      exact ⟨Or.inl rfl, Or.inl rfl⟩
  | jsonObj d =>
    simp only [parse_expert_response]
    cases hrt : risk_type_of_value (d.risk_type.getD orig.risk_type.value) with
    | none =>
      rw [Option.none_bind, Option.getD_none]
      exact ⟨Or.inl rfl, Or.inl rfl⟩
    | some rt =>
      rw [Option.some_bind]
      cases hln : except_to_option (normalize_line_number
          (d.line_number.getD (.listVal [orig.line_number.1, orig.line_number.2]))) with
      | none =>
        rw [Option.none_bind, Option.getD_none]
        exact ⟨Or.inl rfl, Or.inl rfl⟩
      | some ln =>
        rw [Option.some_bind]
        by_cases hc : 0 ≤ d.confidence.getD orig.confidence ∧
            d.confidence.getD orig.confidence ≤ 1
        · rw [if_pos hc, Option.getD_some]
          constructor
          · cases hd : d.risk_type with
            | none =>
              left
              rw [hd, Option.getD_none] at hrt
              rw [risk_type_of_value_value] at hrt
              simpa using hrt.symm
            | some s =>
              right
              refine ⟨d, s, rfl, hd, ?_⟩
              rw [hd, Option.getD_some] at hrt
              simpa using hrt
          · cases hf : d.file_path with
            | none => left; rfl
            | some s => right; exact ⟨d, s, rfl, hf, rfl⟩
        · rw [if_neg hc, Option.getD_none]
          exact ⟨Or.inl rfl, Or.inl rfl⟩

/-- A concrete risk-type override accepted by the parser: a known enum
value supplied by the model replaces the task's risk type. -/
theorem parse_expert_response_override_example :
    ((parse_expert_response
      (.jsonObj { risk_type := some "concurrency_timing_correctness", file_path := none,
                  line_number := none, description := none, confidence := none,
                  severity := none, suggestion := none })
      { risk_type := .AUTHORIZATION_DATA_EXPOSURE, file_path := "a.py",
        line_number := (2, 4), description := "token leak", confidence := mkRat 1 2,
        severity := "warning", suggestion := none }).risk_type
      = .CONCURRENCY_TIMING_CORRECTNESS) := by
  rfl

/-- C6 counterexample: an unparseable response ("gibberish") over a
task of confidence 0.5 yields confidence 0.3, not the zero-confidence
verdict the claim describes. -/
theorem c6_counterexample :
    (parse_expert_response (.text "gibberish")
      { risk_type := .ROBUSTNESS_BOUNDARY_CONDITIONS, file_path := "a.py",
        line_number := (7, 7), description := "d", confidence := mkRat 1 2,
        severity := "warning", suggestion := none }).confidence = mkRat 3 10 ∧
    (mkRat 3 10 : ℚ) ≠ 0 := by
  constructor
  · rfl
  · decide

/-- C6 amended: when the expert's final response cannot be parsed as
JSON, the verdict preserves the task's identity (`risk_type`,
`file_path`, `line_number`, `description`) and its confidence is the
input's raised by 0.2 (capped at 1) when the response mentions
"confirmed" or "valid", and lowered by 0.2 (floored at 0)
otherwise — not a fixed 0. -/
theorem c6_unparseable_response_verdict (raw : String) (orig : RiskItem) :
    (parse_expert_response (.text raw) orig).risk_type = orig.risk_type ∧
    (parse_expert_response (.text raw) orig).file_path = orig.file_path ∧
    (parse_expert_response (.text raw) orig).line_number = orig.line_number ∧
    (parse_expert_response (.text raw) orig).description = orig.description ∧
    (parse_expert_response (.text raw) orig).confidence =
      (if (str_contains (lower raw) "confirmed" || str_contains (lower raw) "valid") = true
       then min 1 (orig.confidence + mkRat 1 5)
       else max 0 (orig.confidence - mkRat 1 5)) := by
  simp only [parse_expert_response]
  by_cases h : (str_contains (lower raw) "confirmed" || str_contains (lower raw) "valid")
      = true
  · rw [if_pos h]
    exact ⟨rfl, rfl, rfl, rfl, by rw [if_pos h, qadd_eq]⟩
  · rw [if_neg h]
    exact ⟨rfl, rfl, rfl, rfl, by rw [if_neg h, qsub_eq]⟩

/-- A canonical tool-call record carried by assistant messages
(`tool_calls: [{id, name, args}]`; `args` is irrelevant to the
runtime helpers embedded here). -/
structure ToolCall where
  id : String
  name : String
deriving DecidableEq

/-- LangChain message shapes used by the expert graph runtime.  Message
contents are strings (`_stringify_content` is the identity on them). -/
inductive Msg where
  | system (content : String)
  | human (content : String)
  | ai (content : String) (tool_calls : List ToolCall)
  | tool (content : String) (tool_call_id : String)
deriving DecidableEq

/-- Content of a message. -/
def msg_content : Msg → String
  | .system c => c
  | .human c => c
  | .ai c _ => c
  | .tool c _ => c

/-- `isinstance(m, ToolMessage)`. -/
def is_tool : Msg → Bool
  | .tool _ _ => true
  | _ => false

/-- `isinstance(m, HumanMessage)`. -/
def is_human : Msg → Bool
  | .human _ => true
  | _ => false

/-- Environment-variable defaults of the history shrinker
(`expert_graph_runtime.py` lines 167–187; the source clamps are
inactive at these defaults). -/
def EXPERT_MAX_HISTORY_MESSAGES : Nat := 16

def EXPERT_MAX_TOTAL_CHARS : Nat := 80000

def EXPERT_MAX_TOOL_CHARS : Nat := 6000

def EXPERT_MAX_AI_CHARS : Nat := 12000

def EXPERT_MAX_EVIDENCE_DIGEST_CHARS : Nat := 16000

def EXPERT_MAX_CONSECUTIVE_NO_SIGNAL_TOOLS : Nat := 5

def EXPERT_NO_SIGNAL_WINDOW : Nat := 10

/-- `_truncate_text` of `ExpertGraphRuntime`. -/
def truncate_text (s : String) (max_chars : Int) : String :=
  if max_chars ≤ 0 then ""
  else if (str_len s : Int) ≤ max_chars then s
  else str_take s max_chars.toNat ++ "\n...[truncated]..."

/-- The tail-collection loop of `shrink_history`: walk the reversed
history, keeping messages while fewer than `EXPERT_MAX_HISTORY_MESSAGES`
are collected or the last collected message was a tool message (so its
spawning assistant message is retained too).  Returns the collected
messages (still newest-first) and the untouched reversed prefix. -/
def shrink_collect : List Msg → Nat → Bool → List Msg × List Msg
  | [], _, _ => ([], [])
  | m :: rest, cnt, need_prev_for_tool =>
    if cnt < EXPERT_MAX_HISTORY_MESSAGES || need_prev_for_tool then
      ((shrink_collect rest (cnt + 1) (is_tool m)).1.cons m,
        (shrink_collect rest (cnt + 1) (is_tool m)).2)
    else ([], m :: rest)

/-- The per-message clipping of `shrink_history`: truncate oversized
tool / assistant contents, preserving the other message data. -/
def clip_msg : Msg → Msg
  | .tool c id =>
    if str_len c > EXPERT_MAX_TOOL_CHARS then
      .tool (truncate_text c EXPERT_MAX_TOOL_CHARS) id
    else .tool c id
  | .ai c tcs =>
    if str_len c > EXPERT_MAX_AI_CHARS then
      .ai (truncate_text c EXPERT_MAX_AI_CHARS) tcs
    else .ai c tcs
  | m => m

/-- Total character count of the retained contents. -/
def total_chars (msgs : List Msg) : Nat := (msgs.map (fun m => str_len (msg_content m))).sum

/-- The front-dropping loop of `shrink_history`: while more than one
message remains and the total exceeds `EXPERT_MAX_TOTAL_CHARS`, pop
from the front, then pop any leading tool messages.  The fuel is the
list length, which bounds the number of iterations. -/
def shrink_drop_go : Nat → List Msg → List Msg
  | 0, l => l
  | fuel + 1, l =>
    if l.length > 1 ∧ total_chars l > EXPERT_MAX_TOTAL_CHARS then
      shrink_drop_go fuel ((l.drop 1).dropWhile is_tool)
    else l

/-- `shrink_history` of `ExpertGraphRuntime` (lines 159–240), at the
environment defaults. -/
def shrink_history (messages : List Msg) : List Msg :=
  if messages = [] then []
  else
    let collected0 := (shrink_collect messages.reverse 0 false).1.reverse
    let leftover := (shrink_collect messages.reverse 0 false).2.reverse
    let collected1 := collected0.dropWhile is_tool
    let collected2 :=
      if collected1 ≠ [] ∧ ¬ collected1.any is_human then
        match leftover.reverse.find? is_human with
        | some m => m :: collected1
        | none => collected1
      else collected1
    let clipped := collected2.map clip_msg
    shrink_drop_go clipped.length clipped

/-- The `tool_id → tool name` pairs `build_evidence_digest` gathers
from assistant tool calls, in order; later pairs overwrite earlier
ones, hence `lookup_last_pair` below. -/
def tool_id_name_pairs (messages : List Msg) : List (String × String) :=
  messages.flatMap (fun m =>
    match m with
    | .ai _ tcs => tcs.filterMap (fun tc => if tc.id ≠ "" then some (tc.id, tc.name) else none)
    | _ => [])

/-- Lookup in an association list where later entries shadow earlier
ones (a Python dict built by repeated assignment). -/
def lookup_last_pair (pairs : List (String × String)) (k : String) : Option String :=
  ((pairs.filter (fun p => decide (p.1 = k))).getLast?).map (fun p => p.2)

/-- One digest block of `build_evidence_digest`: tool messages are
labeled with the resolved tool name and id; assistant messages are
labeled `[ASSISTANT]` when their stripped content is non-empty; all
other messages contribute nothing. -/
def digest_block (pairs : List (String × String)) (m : Msg) : Option String :=
  match m with
  | .tool c id =>
    some ("[TOOL:" ++ (lookup_last_pairs_or_tool pairs id) ++ " id=" ++ id ++ "]\n"
      ++ truncate_text c 3000 ++ "\n")
  | .ai c _ =>
    if py_strip c = "" then none
    else some ("[ASSISTANT]\n" ++ truncate_text (py_strip c) 3000 ++ "\n")
  | _ => none
where lookup_last_pairs_or_tool (pairs : List (String × String)) (id : String) : String :=
  (lookup_last_pair pairs id).getD "tool"

/-- The budgeted collection loop of `build_evidence_digest` over the
reversed history (`used` is the running character budget; the boolean
records whether any part has been kept, mirroring `and parts`). -/
def digest_collect (pairs : List (String × String)) :
    List Msg → Nat → Bool → List String
  | [], _, _ => []
  | m :: rest, used, has_parts =>
    if used ≥ EXPERT_MAX_EVIDENCE_DIGEST_CHARS then []
    else
      match digest_block pairs m with
      | none => digest_collect pairs rest used has_parts
      | some block =>
        if used + str_len block > EXPERT_MAX_EVIDENCE_DIGEST_CHARS && has_parts then []
        else block :: digest_collect pairs rest (used + str_len block) true

/-- Python `sep.join(parts)`. -/
def join_with (sep : String) : List String → String
  | [] => ""
  | [x] => x
  | x :: xs => x ++ sep ++ join_with sep xs

/-- `build_evidence_digest` of `ExpertGraphRuntime` (lines 242–286): a
labeled, truncated concatenation of recent assistant and tool message
contents, newest blocks collected first and re-reversed. -/
def build_evidence_digest (messages : List Msg) : String :=
  py_strip (join_with "\n"
    ((digest_collect (tool_id_name_pairs messages) messages.reverse 0 false).reverse))

/-- `_is_no_signal_tool_result` of `ExpertGraphRuntime` (lines
354–374). -/
def is_no_signal_tool_result (content : String) : Bool :=
  if content = "" then true
  else
    str_contains (py_strip content) "Error invoking tool"
    || str_contains (py_strip content) "Input should be a valid list"
    || str_contains (py_strip content) "Please fix the error and try again"
    || str_contains (py_strip content) "Lite-CPG DB not available"
    || str_contains (py_strip content) "No matches found"
    || str_contains (py_strip content) "\"matches\": []"
    || str_contains (py_strip content) "\x27matches\x27: []"
    || str_contains (py_strip content) "\"total\": 0"
    || str_contains (py_strip content) "\x27total\x27: 0"
    || (str_contains (py_strip content) "\"error\""
        && !str_contains (py_strip content) "\"error\": null"
        && !str_contains (py_strip content) "\"error\": \"\"")

/-- `_count_tool_messages`. -/
def count_tool_messages (messages : List Msg) : Nat := (messages.filter is_tool).length

/-- The scanning loop of `_count_recent_no_signal_tools`: walk the
reversed history, count no-signal results among the last `window` tool
messages. -/
def no_signal_go : List Msg → Nat → Nat → Nat → Nat
  | [], _, _, n => n
  | m :: rest, window, seen, n =>
    match m with
    | .tool c _ =>
      if is_no_signal_tool_result c then
        if seen + 1 ≥ window then n + 1 else no_signal_go rest window (seen + 1) (n + 1)
      else
        if seen + 1 ≥ window then n else no_signal_go rest window (seen + 1) n
    | _ => no_signal_go rest window seen n

/-- `_count_recent_no_signal_tools` (lines 376–389). -/
def count_recent_no_signal_tools (messages : List Msg) (window : Nat) : Nat :=
  no_signal_go messages.reverse (max 1 window) 0 0

/-- The runtime dependencies of the finalize handlers: `llm_raw` is the
gateway client without tool binding, `llm_for_reasoner` the tool-bound
one (only the reasoner uses it), plus the JSON output contract text.
An LLM call either returns an assistant message or fails. -/
structure ExpertGraphRuntime where
  llm_raw : List Msg → Except Unit Msg
  llm_for_reasoner : List Msg → Except Unit Msg
  format_instructions : String

/-- The fallback verdict dict both handlers emit when the final
tool-less call fails (the source serializes it as JSON into a
`SystemMessage`; the fields are modelled directly). -/
structure FallbackVerdict where
  risk_type_value : String
  file_path : String
  line_number : List Int
  description : String
  confidence : ℚ
  severity : String
  suggestion : Option String
deriving DecidableEq

/-- The zero-confidence fallback verdict preserving the task anchor. -/
def fallback_verdict (risk : RiskItem) : FallbackVerdict :=
  { risk_type_value := risk.risk_type.value, file_path := risk.file_path,
    line_number := [risk.line_number.1, risk.line_number.2],
    description := risk.description, confidence := 0, severity := "info",
    suggestion := none }

/-- Result of a triggered finalize path: the model's response (with
`tool_calls` cleared, as the source does), or the fallback verdict. -/
inductive FinalizeResult where
  | response (m : Msg)
  | fallback (v : FallbackVerdict)
deriving DecidableEq

/-- `response.tool_calls = []` after the finalize call. -/
def clear_tool_calls : Msg → Msg
  | .ai c _ => .ai c []
  | m => m

/-- The task-anchor section shared by both force-stop prompts. -/
def task_anchor_text (risk : RiskItem) : String :=
  "## 当前任务锚点\n风险类型: " ++ risk.risk_type.value ++ "\n文件路径: " ++ risk.file_path
    ++ "\n行号范围: " ++ toString risk.line_number.1 ++ ":" ++ toString risk.line_number.2
    ++ "\n描述: " ++ risk.description

/-- The header of the evidence section of a force-stop prompt. -/
def evidence_intro : String :=
  "\n\n## 已有信息摘录（对话/工具输出）\n以下是最近轮次中已获得的关键输出（已截断）。请优先基于这些信息完成最终判断。\n\n"

/-- The evidence section appended to a force-stop prompt when the
digest is non-empty. -/
def evidence_section (evidence : String) : String :=
  if evidence = "" then "" else evidence_intro ++ evidence

/-- The text of the circuit-breaker force-stop prompt up to the output
format contract; the indentation of the Python triple-quoted literal
is flattened to newlines. -/
def cb_prompt_header (current_round max_rounds : Nat) (risk : RiskItem) : String :=
  "⚠️ **紧急停止：分析轮次已达上限 (" ++ toString current_round ++ " > "
    ++ toString max_rounds
    ++ ")**\n\n**请立即停止调用任何工具！直接最终分析！**\n\n请根据目前已收集到的信息，**直接输出最终的 JSON 结果**。\n即使信息不完整，也要基于现有证据给出判断。\n\n"
    ++ task_anchor_text risk
    ++ "\n\n## 输出格式要求（必须严格遵守）\n"

/-- The emphasis block after the circuit-breaker format contract. -/
def cb_prompt_emphasis : String :=
  "\n\n**重要：你必须输出一个有效的 JSON 对象，格式必须完全符合上述要求。不要输出任何解释性文字，只输出 JSON。**"

/-- The force-stop system prompt of `handle_circuit_breaker` (lines
403–428). -/
def circuit_breaker_content (current_round max_rounds : Nat) (risk : RiskItem)
    (fmt evidence : String) : String :=
  cb_prompt_header current_round max_rounds risk ++ fmt ++ cb_prompt_emphasis
    ++ evidence_section evidence

/-- The text of the tool-budget force-stop prompt up to the output
format contract. -/
def tb_prompt_header (reason : String) (risk : RiskItem) : String :=
  "⚠️ **停止工具调用：" ++ reason
    ++ "**\n请基于当前已掌握的信息直接完成最终判断并输出 JSON。\n注意：某些结论可以基于语言语义/常识成立，不一定能在仓库中找到“文字证据”。不要继续尝试全仓库搜索。\n\n"
    ++ task_anchor_text risk
    ++ "\n\n## 输出格式要求（必须严格遵守）\n"

/-- The emphasis block after the tool-budget format contract. -/
def tb_prompt_emphasis : String :=
  "\n\n**重要：你必须输出一个有效的 JSON 对象。不要输出任何解释性文字，只输出 JSON。**"

/-- The force-stop system prompt of `handle_tool_budget` (lines
486–508). -/
def tool_budget_content (reason : String) (risk : RiskItem) (fmt evidence : String) :
    String :=
  tb_prompt_header reason risk ++ fmt ++ tb_prompt_emphasis ++ evidence_section evidence

/-- The user turn of both finalize calls. -/
def finalize_user_message : String := "请直接输出最终 JSON（不要调用工具，不要输出解释）。"

/-- `handle_circuit_breaker` of `ExpertGraphRuntime` (lines 391–452):
fires when the round budget is exceeded; builds the evidence digest
over the shrunken history, issues one call through `llm_raw` (no tool
binding), clears tool calls on the response, and falls back to the
zero-confidence anchor-preserving verdict when the call fails. -/
def handle_circuit_breaker (rt : ExpertGraphRuntime) (messages : List Msg)
    (current_round max_rounds : Nat) (risk : RiskItem) : Option FinalizeResult :=
  if current_round ≤ max_rounds then none
  else
    match rt.llm_raw
        [.system (circuit_breaker_content current_round max_rounds risk
          rt.format_instructions (build_evidence_digest (shrink_history messages))),
         .human finalize_user_message] with
    | .ok m => some (.response (clear_tool_calls m))
    | .error _ => some (.fallback (fallback_verdict risk))

/-- The stop-reason selection of `handle_tool_budget` (lines 454–483):
tools disabled but used, the tool-call cap reached, or a recent
no-signal streak. -/
def tool_budget_reason (messages : List Msg) (max_tool_calls : Int) : Option String :=
  if (if max_tool_calls < 0 then 0 else max_tool_calls) = 0
      ∧ count_tool_messages messages > 0 then
    some "工具调用已被禁用"
  else if (if max_tool_calls < 0 then 0 else max_tool_calls) > 0
      ∧ ((if max_tool_calls < 0 then 0 else max_tool_calls)
          ≤ (count_tool_messages messages : Int)) then
    some ("工具调用次数已达上限 (" ++ toString (count_tool_messages messages) ++ " >= "
      ++ toString (if max_tool_calls < 0 then 0 else max_tool_calls) ++ ")")
  else if count_recent_no_signal_tools messages EXPERT_NO_SIGNAL_WINDOW
      ≥ EXPERT_MAX_CONSECUTIVE_NO_SIGNAL_TOOLS then
    some ("最近 " ++ toString EXPERT_NO_SIGNAL_WINDOW ++ " 次工具调用中有 "
      ++ toString EXPERT_MAX_CONSECUTIVE_NO_SIGNAL_TOOLS ++ " 次无有效信息")
  else none

/-- `handle_tool_budget` of `ExpertGraphRuntime` (lines 454–531):
same finalize structure as the circuit breaker, triggered by the tool
budget. -/
def handle_tool_budget (rt : ExpertGraphRuntime) (messages : List Msg)
    (max_tool_calls : Int) (risk : RiskItem) : Option FinalizeResult :=
  match tool_budget_reason messages max_tool_calls with
  | none => none
  | some reason =>
    match rt.llm_raw
        [.system (tool_budget_content reason risk rt.format_instructions
          (build_evidence_digest (shrink_history messages))),
         .human finalize_user_message] with
    | .ok m => some (.response (clear_tool_calls m))
    | .error _ => some (.fallback (fallback_verdict risk))

theorem string_infix_middle4 (x y z w : String) : y.data <:+: (x ++ y ++ z ++ w).data :=
  ⟨x.data, (z ++ w).data, by simp [str_append_data]⟩

theorem evidence_section_infix (e x : String) :
    e.data <:+: (x ++ evidence_section e).data := by
  by_cases he : e = ""
  · subst he
    exact List.nil_infix
  · refine List.IsSuffix.isInfix ⟨(x ++ evidence_intro).data, ?_⟩
    simp [evidence_section, he, str_append_data]

/-- C7: when the round budget or the tool-call budget is exhausted,
each handler fires and issues exactly one finalize call through
`llm_raw` (the gateway without tool binding; `llm_for_reasoner` is
never consulted), whose system message contains the output-format
contract and the evidence digest built from the shrunken history; when
that call fails, the handler yields the fallback verdict of confidence
0 preserving the task anchor (`risk_type`, `file_path`, `line_number`,
`description`). -/
theorem c7_budget_exhaustion_finalize (rt : ExpertGraphRuntime) (messages : List Msg)
    (current_round max_rounds : Nat) (max_tool_calls : Int) (risk : RiskItem)
    (hr : max_rounds < current_round)
    (ht : 0 < max_tool_calls ∧ max_tool_calls ≤ (count_tool_messages messages : Int)) :
    handle_circuit_breaker rt messages current_round max_rounds risk =
      (match rt.llm_raw
          [Msg.system (circuit_breaker_content current_round max_rounds risk
            rt.format_instructions (build_evidence_digest (shrink_history messages))),
           Msg.human finalize_user_message] with
       | .ok m => some (.response (clear_tool_calls m))
       | .error _ => some (.fallback (fallback_verdict risk))) ∧
    rt.format_instructions.data <:+:
      (circuit_breaker_content current_round max_rounds risk rt.format_instructions
        (build_evidence_digest (shrink_history messages))).data ∧
    (build_evidence_digest (shrink_history messages)).data <:+:
      (circuit_breaker_content current_round max_rounds risk rt.format_instructions
        (build_evidence_digest (shrink_history messages))).data ∧
    tool_budget_reason messages max_tool_calls =
      some ("工具调用次数已达上限 (" ++ toString (count_tool_messages messages) ++ " >= "
        ++ toString max_tool_calls ++ ")") ∧
    handle_tool_budget rt messages max_tool_calls risk =
      (match rt.llm_raw
          [Msg.system (tool_budget_content
            ("工具调用次数已达上限 (" ++ toString (count_tool_messages messages) ++ " >= "
              ++ toString max_tool_calls ++ ")") risk rt.format_instructions
            (build_evidence_digest (shrink_history messages))),
           Msg.human finalize_user_message] with
       | .ok m => some (.response (clear_tool_calls m))
       | .error _ => some (.fallback (fallback_verdict risk))) ∧
    rt.format_instructions.data <:+:
      (tool_budget_content
        ("工具调用次数已达上限 (" ++ toString (count_tool_messages messages) ++ " >= "
          ++ toString max_tool_calls ++ ")") risk rt.format_instructions
        (build_evidence_digest (shrink_history messages))).data ∧
    (build_evidence_digest (shrink_history messages)).data <:+:
      (tool_budget_content
        ("工具调用次数已达上限 (" ++ toString (count_tool_messages messages) ++ " >= "
          ++ toString max_tool_calls ++ ")") risk rt.format_instructions
        (build_evidence_digest (shrink_history messages))).data ∧
    (∀ f, handle_circuit_breaker { rt with llm_for_reasoner := f } messages current_round
        max_rounds risk = handle_circuit_breaker rt messages current_round max_rounds risk) ∧
    (∀ f, handle_tool_budget { rt with llm_for_reasoner := f } messages max_tool_calls risk
      = handle_tool_budget rt messages max_tool_calls risk) ∧
    handle_circuit_breaker { rt with llm_raw := fun _ => .error () } messages current_round
      max_rounds risk = some (.fallback (fallback_verdict risk)) ∧
    handle_tool_budget { rt with llm_raw := fun _ => .error () } messages max_tool_calls risk
      = some (.fallback (fallback_verdict risk)) ∧
    (fallback_verdict risk).confidence = 0 ∧
    (fallback_verdict risk).risk_type_value = risk.risk_type.value ∧
    (fallback_verdict risk).file_path = risk.file_path ∧
    (fallback_verdict risk).line_number = [risk.line_number.1, risk.line_number.2] ∧
    (fallback_verdict risk).description = risk.description := by
  have hmtc : (if max_tool_calls < 0 then 0 else max_tool_calls) = max_tool_calls :=
    if_neg (by omega)
  have hreason : tool_budget_reason messages max_tool_calls =
      some ("工具调用次数已达上限 (" ++ toString (count_tool_messages messages) ++ " >= "
        ++ toString max_tool_calls ++ ")") := by
    unfold tool_budget_reason
    rw [hmtc]
    rw [if_neg (by rintro ⟨h1, _⟩; omega)]
    rw [if_pos ⟨ht.1, ht.2⟩]
  have hcb : handle_circuit_breaker rt messages current_round max_rounds risk =
      (match rt.llm_raw
          [Msg.system (circuit_breaker_content current_round max_rounds risk
            rt.format_instructions (build_evidence_digest (shrink_history messages))),
           Msg.human finalize_user_message] with
       | .ok m => some (.response (clear_tool_calls m))
       | .error _ => some (.fallback (fallback_verdict risk))) := by
    unfold handle_circuit_breaker
    rw [if_neg (by omega)]
  have htb : handle_tool_budget rt messages max_tool_calls risk =
      (match rt.llm_raw
          [Msg.system (tool_budget_content
            ("工具调用次数已达上限 (" ++ toString (count_tool_messages messages) ++ " >= "
              ++ toString max_tool_calls ++ ")") risk rt.format_instructions
            (build_evidence_digest (shrink_history messages))),
           Msg.human finalize_user_message] with
       | .ok m => some (.response (clear_tool_calls m))
       | .error _ => some (.fallback (fallback_verdict risk))) := by
    unfold handle_tool_budget
    rw [hreason]
  refine ⟨hcb, ?_, ?_, hreason, htb, ?_, ?_, fun f => rfl, fun f => rfl, ?_, ?_, rfl, rfl,
    rfl, rfl, rfl⟩
  · exact string_infix_middle4 _ _ _ _
  · exact evidence_section_infix _ _
  · exact string_infix_middle4 _ _ _ _
  · exact evidence_section_infix _ _
  · unfold handle_circuit_breaker
    rw [if_neg (by omega)]
  · unfold handle_tool_budget
    have hreason2 : tool_budget_reason messages max_tool_calls =
        some ("工具调用次数已达上限 (" ++ toString (count_tool_messages messages) ++ " >= "
          ++ toString max_tool_calls ++ ")") := hreason
    rw [hreason2]

/-- A runtime whose gateway calls all fail, for exercising the
fallback path. -/
def w7_runtime : ExpertGraphRuntime :=
  { llm_raw := fun _ => .error (), llm_for_reasoner := fun _ => .error (),
    format_instructions := "FORMAT-CONTRACT" }

/-- A one-message history holding a single tool result. -/
def w7_messages : List Msg := [.tool "x" "id1"]

/-- Witness for C7 at round 21 of 20 and a tool budget of 1 already
spent. -/
theorem c7_witness :
    20 < 21 ∧
    (0 < (1 : Int) ∧ (1 : Int) ≤ (count_tool_messages w7_messages : Int)) ∧
    (handle_circuit_breaker w7_runtime w7_messages 21 20 s_anchored_item =
      (match w7_runtime.llm_raw
          [Msg.system (circuit_breaker_content 21 20 s_anchored_item
            w7_runtime.format_instructions (build_evidence_digest (shrink_history w7_messages))),
           Msg.human finalize_user_message] with
       | .ok m => some (.response (clear_tool_calls m))
       | .error _ => some (.fallback (fallback_verdict s_anchored_item))) ∧
    w7_runtime.format_instructions.data <:+:
      (circuit_breaker_content 21 20 s_anchored_item w7_runtime.format_instructions
        (build_evidence_digest (shrink_history w7_messages))).data ∧
    (build_evidence_digest (shrink_history w7_messages)).data <:+:
      (circuit_breaker_content 21 20 s_anchored_item w7_runtime.format_instructions
        (build_evidence_digest (shrink_history w7_messages))).data ∧
    tool_budget_reason w7_messages 1 =
      some ("工具调用次数已达上限 (" ++ toString (count_tool_messages w7_messages) ++ " >= "
        ++ toString (1 : Int) ++ ")") ∧
    handle_tool_budget w7_runtime w7_messages 1 s_anchored_item =
      (match w7_runtime.llm_raw
          [Msg.system (tool_budget_content
            ("工具调用次数已达上限 (" ++ toString (count_tool_messages w7_messages) ++ " >= "
              ++ toString (1 : Int) ++ ")") s_anchored_item w7_runtime.format_instructions
            (build_evidence_digest (shrink_history w7_messages))),
           Msg.human finalize_user_message] with
       | .ok m => some (.response (clear_tool_calls m))
       | .error _ => some (.fallback (fallback_verdict s_anchored_item))) ∧
    w7_runtime.format_instructions.data <:+:
      (tool_budget_content
        ("工具调用次数已达上限 (" ++ toString (count_tool_messages w7_messages) ++ " >= "
          ++ toString (1 : Int) ++ ")") s_anchored_item w7_runtime.format_instructions
        (build_evidence_digest (shrink_history w7_messages))).data ∧
    (build_evidence_digest (shrink_history w7_messages)).data <:+:
      (tool_budget_content
        ("工具调用次数已达上限 (" ++ toString (count_tool_messages w7_messages) ++ " >= "
          ++ toString (1 : Int) ++ ")") s_anchored_item w7_runtime.format_instructions
        (build_evidence_digest (shrink_history w7_messages))).data ∧
    (∀ f, handle_circuit_breaker { w7_runtime with llm_for_reasoner := f } w7_messages 21 20
        s_anchored_item = handle_circuit_breaker w7_runtime w7_messages 21 20 s_anchored_item) ∧
    (∀ f, handle_tool_budget { w7_runtime with llm_for_reasoner := f } w7_messages 1
        s_anchored_item = handle_tool_budget w7_runtime w7_messages 1 s_anchored_item) ∧
    handle_circuit_breaker { w7_runtime with llm_raw := fun _ => .error () } w7_messages 21 20
      s_anchored_item = some (.fallback (fallback_verdict s_anchored_item)) ∧
    handle_tool_budget { w7_runtime with llm_raw := fun _ => .error () } w7_messages 1
      s_anchored_item = some (.fallback (fallback_verdict s_anchored_item)) ∧
    (fallback_verdict s_anchored_item).confidence = 0 ∧
    (fallback_verdict s_anchored_item).risk_type_value = s_anchored_item.risk_type.value ∧
    (fallback_verdict s_anchored_item).file_path = s_anchored_item.file_path ∧
    (fallback_verdict s_anchored_item).line_number =
      [s_anchored_item.line_number.1, s_anchored_item.line_number.2] ∧
    (fallback_verdict s_anchored_item).description = s_anchored_item.description) :=
  ⟨by decide, ⟨by decide, by decide⟩,
    c7_budget_exhaustion_finalize w7_runtime w7_messages 21 20 1 s_anchored_item
      (by decide) ⟨by decide, by decide⟩⟩

/-- Flattening of `expert_results` in `reporter_node` (lines 44–47):
group order then item order. -/
def flatten_expert_results (expert_results : List (String × List RiskItem)) : List RiskItem :=
  expert_results.flatMap (fun p => p.2)

/-- The confidence filter of `reporter_node` (lines 60–63): keep items
with `confidence ≥ threshold_by_type.get(risk_type.value,
confidence_threshold)`. -/
def reporter_confirmed_issues (expert_results : List (String × List RiskItem))
    (confidence_threshold : ℚ) (threshold_by_type : List (String × ℚ)) : List RiskItem :=
  (flatten_expert_results expert_results).filter (fun item =>
    decide ((threshold_by_type.lookup item.risk_type.value).getD confidence_threshold
      ≤ item.confidence))

/-- The `confidence_threshold` value `run_multi_agent_workflow` places
in the metadata the Reporter reads (`workflow.py` line 317). -/
def workflow_metadata_confidence_threshold : ℚ := mkRat 1 2

/-- The fallback default of `reporter_node` when metadata carries no
threshold (`reporter.py` line 52). -/
def reporter_fallback_confidence_threshold : ℚ := mkRat 1 2

/-- `SystemConfig.confidence_threshold`'s declared default, documented
as "Minimum confidence to be considered confirmed in reporter"
(`config.py` lines 89–94) — never read by `reporter_node`. -/
def config_default_confidence_threshold : ℚ := mkRat 3 5

/-- An expert verdict of confidence 0.55, between the wired default
0.5 and the configured default 0.6. -/
def w8_item : RiskItem :=
  { risk_type := .INTENT_SEMANTIC_CONSISTENCY, file_path := "a.py", line_number := (1, 1),
    description := "d", confidence := mkRat 11 20, severity := "warning",
    suggestion := none }

/-- C8 (evidence of the default-threshold divergence): the Reporter's
confirmed issues are exactly the flattened verdicts passing
`threshold_by_type.get(risk_type, default)`, but the default actually
wired through the workflow metadata is 0.5, not the 0.6 the claim (and
`config.py`'s `confidence_threshold` field, which the reporter never
reads) states: a 0.55-confidence verdict is kept although 0.55 < 0.6. -/
theorem c8_reporter_threshold_divergence :
    (∀ (expert_results : List (String × List RiskItem)) (confidence_threshold : ℚ)
        (threshold_by_type : List (String × ℚ)) (it : RiskItem),
      it ∈ reporter_confirmed_issues expert_results confidence_threshold threshold_by_type ↔
        (it ∈ flatten_expert_results expert_results ∧
          (threshold_by_type.lookup it.risk_type.value).getD confidence_threshold
            ≤ it.confidence)) ∧
    workflow_metadata_confidence_threshold = mkRat 1 2 ∧
    config_default_confidence_threshold = mkRat 3 5 ∧
    w8_item ∈ reporter_confirmed_issues [("intent_semantic_consistency", [w8_item])]
      workflow_metadata_confidence_threshold [] ∧
    w8_item.confidence < config_default_confidence_threshold := by
  refine ⟨?_, rfl, rfl, by decide, by decide⟩
  intro er ct tbt it
  simp [reporter_confirmed_issues, List.mem_filter]

/-- Metadata values are heterogeneous in the source (`Dict[str, Any]`);
only strings and numbers occur in the paths embedded here. -/
inductive MetaVal where
  | str (s : String)
  | num (q : ℚ)
deriving DecidableEq

/-- The slice of `ReviewState` that `run_multi_agent_workflow` builds
and returns (`workflow.py` lines 303–319; the `messages` list and the
injected dependency slots are omitted as irrelevant to the result
contract). -/
structure WorkflowState where
  diff_context : String
  changed_files : List String
  file_analyses : List FileAnalysis
  work_list : List RiskItem
  expert_tasks : List (String × List RiskItem)
  expert_results : List (String × List RiskItem)
  confirmed_issues : List RiskItem
  final_report : String
  lint_errors : List LintError
  metadata : List (String × MetaVal)

/-- The initial state of `run_multi_agent_workflow` (lines 303–319). -/
def workflow_initial_state (diff_context : String) (changed_files : List String)
    (lint_errors : List LintError) (provider : String) : WorkflowState :=
  { diff_context := diff_context, changed_files := changed_files, file_analyses := [],
    work_list := [], expert_tasks := [], expert_results := [], confirmed_issues := [],
    final_report := "", lint_errors := lint_errors,
    metadata := [("workflow_version", .str "multi_agent_parallel"),
      ("config_provider", .str provider),
      ("confidence_threshold", .num workflow_metadata_confidence_threshold)] }

/-- Dict lookup where later `{**d, k: v}` entries shadow earlier ones. -/
def metadata_get (md : List (String × MetaVal)) (k : String) : Option MetaVal :=
  ((md.filter (fun p => decide (p.1 = k))).getLast?).map (fun p => p.2)

/-- `run_multi_agent_workflow` around `app.ainvoke` (lines 331–372):
the graph execution either produces a final state or raises; a raise is
caught and converted into the initial state with `confirmed_issues`
cleared, an error report, and the error recorded in the metadata. -/
def run_multi_agent_workflow (diff_context : String) (changed_files : List String)
    (lint_errors : List LintError) (provider : String)
    (exec_result : Except String WorkflowState) : WorkflowState :=
  match exec_result with
  | .ok final_state => final_state
  | .error e =>
    { workflow_initial_state diff_context changed_files lint_errors provider with
      confirmed_issues := [],
      final_report := "Workflow execution error: " ++ e,
      metadata := (workflow_initial_state diff_context changed_files lint_errors
          provider).metadata ++ [("workflow_error", .str e)] }

/-- C10: the workflow runner is total over the execution outcome — a
successful execution's state is returned as-is, and an escaped
exception is converted into a state with empty `confirmed_issues`, the
final report "Workflow execution error: " followed by the message, the
error stored under the metadata key `workflow_error`, and the input
fields of the initial state preserved. -/
theorem c10_workflow_error_state (diff_context : String) (changed_files : List String)
    (lint_errors : List LintError) (provider : String) :
    (∀ s, run_multi_agent_workflow diff_context changed_files lint_errors provider
      (.ok s) = s) ∧
    (∀ e,
      (run_multi_agent_workflow diff_context changed_files lint_errors provider
        (.error e)).confirmed_issues = [] ∧
      (run_multi_agent_workflow diff_context changed_files lint_errors provider
        (.error e)).final_report = "Workflow execution error: " ++ e ∧
      metadata_get (run_multi_agent_workflow diff_context changed_files lint_errors provider
        (.error e)).metadata "workflow_error" = some (.str e) ∧
      (run_multi_agent_workflow diff_context changed_files lint_errors provider
        (.error e)).diff_context = diff_context ∧
      (run_multi_agent_workflow diff_context changed_files lint_errors provider
        (.error e)).changed_files = changed_files ∧
      (run_multi_agent_workflow diff_context changed_files lint_errors provider
        (.error e)).lint_errors = lint_errors) := by
  refine ⟨fun s => rfl, fun e => ⟨rfl, rfl, ?_, rfl, rfl, rfl⟩⟩
  simp [run_multi_agent_workflow, workflow_initial_state, metadata_get]

/-- A packed diff chunk (`intent_analysis_chunked.py`, class `Chunk`),
restricted to the fields `_select_topk_chunks` reads; `must_include` is
set during packing to whether any file of the chunk has a strong-danger
hit (`_pack_chunks` line 234). -/
structure Chunk where
  chunk_id : String
  score : ℚ
  changed_lines : Int
  must_include : Bool
deriving DecidableEq

/-- Environment defaults of the Top-K selector
(`intent_analysis_chunked.py` lines 281–297). -/
def INTENT_CHUNK_TOPK_DISABLE_BELOW : Nat := 4

def INTENT_CHUNK_TOPK_MAX : Nat := 10

def INTENT_CHUNK_TOPK_MIN : Nat := 4

/-- `topk_ratio` default 0.3. -/
def intent_chunk_topk_fraction : ℚ := mkRat 3 10

/-- Non-strict lexicographic order on character lists. -/
def chars_le : List Char → List Char → Bool
  | [], _ => true
  | _ :: _, [] => false
  | a :: l1, b :: l2 =>
    if a.val < b.val then true else if b.val < a.val then false else chars_le l1 l2

/-- Non-strict Python string comparison. -/
def str_le (a b : String) : Bool := chars_le a.data b.data

/-- Sort key `(-must_include, -score, chunk_id)` used for the selected
(and small-N) chunk ordering. -/
def chunk_sel_le (a b : Chunk) : Bool :=
  if a.must_include ≠ b.must_include then a.must_include && !b.must_include
  else if a.score ≠ b.score then decide (b.score < a.score)
  else str_le a.chunk_id b.chunk_id

/-- Sort key `(-score, -changed_lines, chunk_id)` used for the
non-must chunks. -/
def chunk_rest_le (a b : Chunk) : Bool :=
  if a.score ≠ b.score then decide (b.score < a.score)
  else if a.changed_lines ≠ b.changed_lines then decide (b.changed_lines < a.changed_lines)
  else str_le a.chunk_id b.chunk_id

/-- Sort key `(-score, chunk_id)` used for the skipped chunks. -/
def chunk_skip_le (a b : Chunk) : Bool :=
  if a.score ≠ b.score then decide (b.score < a.score)
  else str_le a.chunk_id b.chunk_id

/-- `K = min(n, min(topk_max, max(topk_min, ceil(n · topk_ratio))))`
(`_select_topk_chunks` lines 292–297; the `topk_max > 0` guard holds at
the default 10). -/
def topk_k (n : Nat) : Int :=
  min (n : Int)
    (if (INTENT_CHUNK_TOPK_MAX : Int) > 0 then
      min (INTENT_CHUNK_TOPK_MAX : Int)
        (max (INTENT_CHUNK_TOPK_MIN : Int)
          (Rat.ceil (qmul (mkRat (n : Int) 1) intent_chunk_topk_fraction)))
    else
      max (INTENT_CHUNK_TOPK_MIN : Int)
        (Rat.ceil (qmul (mkRat (n : Int) 1) intent_chunk_topk_fraction)))

/-- The must-include pass of `_select_topk_chunks` (lines 303–309):
append every must chunk not yet seen, with no budget check. -/
def must_collect : List Chunk → List Chunk → List String → List Chunk × List String
  | [], selected, seen => (selected, seen)
  | c :: cs, selected, seen =>
    if c.chunk_id ∈ seen then must_collect cs selected seen
    else must_collect cs (selected ++ [c]) (seen ++ [c.chunk_id])

/-- The budgeted pass over the remaining sorted chunks (lines
311–317). -/
def topk_pick (k : Int) : List Chunk → List Chunk → List String → List Chunk × List String
  | [], selected, seen => (selected, seen)
  | c :: cs, selected, seen =>
    if (selected.length : Int) ≥ k then (selected, seen)
    else if c.chunk_id ∈ seen then topk_pick k cs selected seen
    else topk_pick k cs (selected ++ [c]) (seen ++ [c.chunk_id])

/-- The combined selection passes (must chunks first, then the sorted
rest under the budget `topk_k`). -/
def topk_selection (chunks : List Chunk) : List Chunk × List String :=
  topk_pick (topk_k chunks.length)
    (sort_by chunk_rest_le (chunks.filter (fun c => !c.must_include)))
    (must_collect (chunks.filter (fun c => c.must_include)) [] []).1
    (must_collect (chunks.filter (fun c => c.must_include)) [] []).2

/-- `_select_topk_chunks` (`intent_analysis_chunked.py` lines 277–332)
at the environment defaults; the sentinel-sample branch is dead at the
default `INTENT_CHUNK_SENTINEL_SAMPLE = 0` and therefore omitted.
Returns `(selected_sorted, skipped_sorted)`. -/
def select_topk_chunks (chunks : List Chunk) : List Chunk × List Chunk :=
  if chunks = [] then ([], [])
  else if 0 < INTENT_CHUNK_TOPK_DISABLE_BELOW
      ∧ chunks.length < INTENT_CHUNK_TOPK_DISABLE_BELOW then
    (sort_by chunk_sel_le chunks, [])
  else
    (sort_by chunk_sel_le (topk_selection chunks).1,
     sort_by chunk_skip_le
       (chunks.filter (fun c => decide (c.chunk_id ∉ (topk_selection chunks).2))))

theorem must_collect_eq (l : List Chunk) : ∀ (sel : List Chunk) (seen : List String),
    (l.map Chunk.chunk_id).Nodup → (∀ x ∈ l, x.chunk_id ∉ seen) →
    must_collect l sel seen = (sel ++ l, seen ++ l.map Chunk.chunk_id) := by
  induction l with
  | nil => intro sel seen _ _; simp [must_collect]
  | cons c cs ih =>
    intro sel seen hnd hdis
    have hnd' : c.chunk_id ∉ cs.map Chunk.chunk_id ∧ (cs.map Chunk.chunk_id).Nodup := by
      rw [List.map_cons, List.nodup_cons] at hnd
      exact hnd
    simp only [must_collect]
    rw [if_neg (hdis c (by simp))]
    rw [ih (sel ++ [c]) (seen ++ [c.chunk_id]) hnd'.2 ?_]
    · simp
    · intro x hx
      simp only [List.mem_append, List.mem_singleton]
      rintro (h | h)
      · exact hdis x (by simp [hx]) h
      · exact hnd'.1 (h ▸ List.mem_map_of_mem Chunk.chunk_id hx)

theorem topk_pick_sel_subset (k : Int) (l : List Chunk) :
    ∀ (sel : List Chunk) (seen : List String) (c : Chunk), c ∈ sel →
      c ∈ (topk_pick k l sel seen).1 := by
  induction l with
  | nil => intro sel seen c hc; simpa [topk_pick] using hc
  | cons x xs ih =>
    intro sel seen c hc
    simp only [topk_pick]
    by_cases h1 : (sel.length : Int) ≥ k
    · rw [if_pos h1]; exact hc
    · rw [if_neg h1]
      by_cases h2 : x.chunk_id ∈ seen
      · rw [if_pos h2]; exact ih sel seen c hc
      · rw [if_neg h2]
        exact ih (sel ++ [x]) (seen ++ [x.chunk_id]) c (List.mem_append_left _ hc)

theorem topk_pick_length (k : Int) (hk : 0 ≤ k) (l : List Chunk) :
    ∀ (sel : List Chunk) (seen : List String),
    (l.map Chunk.chunk_id).Nodup → (∀ x ∈ l, x.chunk_id ∉ seen) →
    (topk_pick k l sel seen).1.length = max sel.length (min (sel.length + l.length) k.toNat) := by
  induction l with
  | nil =>
    intro sel seen _ _
    simp only [topk_pick, List.length_nil]
    omega
  | cons c cs ih =>
    intro sel seen hnd hdis
    have hnd' : c.chunk_id ∉ cs.map Chunk.chunk_id ∧ (cs.map Chunk.chunk_id).Nodup := by
      rw [List.map_cons, List.nodup_cons] at hnd
      exact hnd
    simp only [topk_pick]
    by_cases h1 : (sel.length : Int) ≥ k
    · rw [if_pos h1]
      simp only [List.length_cons]
      omega
    · rw [if_neg h1, if_neg (hdis c (by simp))]
      rw [ih (sel ++ [c]) (seen ++ [c.chunk_id]) hnd'.2 ?_]
      · simp only [List.length_append, List.length_cons, List.length_nil]
        rw [not_le] at h1
        omega
      · intro x hx
        simp only [List.mem_append, List.mem_singleton]
        rintro (h | h)
        · exact hdis x (by simp [hx]) h
        · exact hnd'.1 (h ▸ List.mem_map_of_mem Chunk.chunk_id hx)

theorem filter_length_partition (p : Chunk → Bool) (l : List Chunk) :
    (l.filter p).length + (l.filter (fun c => !p c)).length = l.length := by
  induction l with
  | nil => rfl
  | cons c cs ih =>
    by_cases h : p c = true
    · simp only [List.filter_cons, h, if_pos, Bool.not_true, if_neg, List.length_cons,
        Bool.false_eq_true, ite_false, ite_true]
      omega
    · simp only [List.filter_cons, h, Bool.not_eq_true] at ih ⊢
      simp only [h, Bool.not_false, ite_true, ite_false, List.length_cons,
        Bool.false_eq_true]
      omega

theorem filter_ids_disjoint (l : List Chunk) (hnd : (l.map Chunk.chunk_id).Nodup) :
    ∀ x ∈ l.filter (fun c => !c.must_include),
      x.chunk_id ∉ (l.filter (fun c => c.must_include)).map Chunk.chunk_id := by
  induction l with
  | nil => simp
  | cons c cs ih =>
    have hnd' : c.chunk_id ∉ cs.map Chunk.chunk_id ∧ (cs.map Chunk.chunk_id).Nodup := by
      rw [List.map_cons, List.nodup_cons] at hnd
      exact hnd
    intro x hx
    by_cases hm : c.must_include = true
    · rw [List.filter_cons_of_neg (by simp [hm])] at hx
      rw [List.filter_cons_of_pos hm]
      simp only [List.map_cons, List.mem_cons]
      rintro (h | h)
      · exact hnd'.1 (h ▸ List.mem_map_of_mem Chunk.chunk_id (List.mem_of_mem_filter hx))
      · exact ih hnd'.2 x hx h
    · rw [List.filter_cons_of_pos (by simp [hm])] at hx
      rw [List.filter_cons_of_neg hm]
      rcases List.mem_cons.mp hx with h | h
      · subst h
        intro hmem
        obtain ⟨y, hy, hid⟩ := List.mem_map.mp hmem
        exact hnd'.1 (hid ▸ List.mem_map_of_mem Chunk.chunk_id (List.mem_of_mem_filter hy))
      · exact ih hnd'.2 x h

theorem topk_k_eq_clamp (n : Nat) (hn : 4 ≤ n) :
    topk_k n = min 10 (max 4 (Rat.ceil (qmul (mkRat (n : Int) 1)
      intent_chunk_topk_fraction))) := by
  have h1 : (mkRat (n : Int) 1 : ℚ) = (n : ℚ) := by
    rw [Rat.mkRat_eq_div]
    push_cast
    exact div_one _
  have hceil : Rat.ceil (qmul (mkRat (n : Int) 1) intent_chunk_topk_fraction) ≤ (n : Int) := by
    rw [rat_ceil_eq_intCeil]
    rw [Int.ceil_le]
    rw [qmul_eq, h1]
    have hfrac : intent_chunk_topk_fraction ≤ 1 := by
      rw [intent_chunk_topk_fraction, Rat.mkRat_eq_div]
      norm_num
    calc (n : ℚ) * intent_chunk_topk_fraction
        ≤ (n : ℚ) * 1 := by
          exact mul_le_mul_of_nonneg_left hfrac (by positivity)
      _ = ((n : Int) : ℚ) := by push_cast; ring
  unfold topk_k
  rw [if_pos (by simp [INTENT_CHUNK_TOPK_MAX])]
  simp only [INTENT_CHUNK_TOPK_MAX, INTENT_CHUNK_TOPK_MIN]
  push_cast
  omega

/-- C9 counterexample: five chunks that all carry a strong-danger hit
are all selected, although `clamp(ceil(5·0.3), 4, 10) = 4`; so the
number of selected chunks is not the clamp value the claim states. -/
theorem c9_counterexample :
    (select_topk_chunks
      [{ chunk_id := "a:1", score := 1, changed_lines := 1, must_include := true },
       { chunk_id := "b:1", score := 1, changed_lines := 1, must_include := true },
       { chunk_id := "c:1", score := 1, changed_lines := 1, must_include := true },
       { chunk_id := "d:1", score := 1, changed_lines := 1, must_include := true },
       { chunk_id := "e:1", score := 1, changed_lines := 1, must_include := true }]).1.length
      = 5 ∧
    min (10 : Int) (max 4 (Rat.ceil (qmul (mkRat (5 : Int) 1) intent_chunk_topk_fraction)))
      = 4 := by
  refine ⟨by decide, by decide⟩

/-- C9 amended: with at least `topk_disable_below` chunks (and distinct
chunk ids, as packing guarantees), the selected set contains every
must-include chunk (every chunk with a strong-danger hit), and the
number of selected chunks is `max(K, M)` where
`K = clamp(ceil(N·topk_ratio), topk_min, topk_max)` and `M` is the
number of must-include chunks — the claim's `K` alone only when
`M ≤ K`. -/
theorem c9_topk_selected (chunks : List Chunk)
    (hn : INTENT_CHUNK_TOPK_DISABLE_BELOW ≤ chunks.length)
    (hids : (chunks.map Chunk.chunk_id).Nodup) :
    (∀ c ∈ chunks, c.must_include = true → c ∈ (select_topk_chunks chunks).1) ∧
    (select_topk_chunks chunks).1.length =
      max (topk_k chunks.length).toNat
        (chunks.filter (fun c => c.must_include)).length ∧
    topk_k chunks.length =
      min 10 (max 4 (Rat.ceil (qmul (mkRat (chunks.length : Int) 1)
        intent_chunk_topk_fraction))) := by
  have hn4 : 4 ≤ chunks.length := hn
  have hne : chunks ≠ [] := by
    intro h
    rw [h] at hn4
    simp at hn4
  have hclamp := topk_k_eq_clamp chunks.length hn4
  have hkn : topk_k chunks.length ≤ (chunks.length : Int) := min_le_left _ _
  have hk0 : 0 ≤ topk_k chunks.length := by
    rw [hclamp]
    omega
  have hmustnd : ((chunks.filter (fun c => c.must_include)).map Chunk.chunk_id).Nodup :=
    List.Nodup.sublist (List.Sublist.map _ (List.filter_sublist _)) hids
  have hrestnd : ((chunks.filter (fun c => !c.must_include)).map Chunk.chunk_id).Nodup :=
    List.Nodup.sublist (List.Sublist.map _ (List.filter_sublist _)) hids
  have hperm := sort_by_perm chunk_rest_le (chunks.filter (fun c => !c.must_include))
  have hsortnd : ((sort_by chunk_rest_le (chunks.filter (fun c => !c.must_include))).map
      Chunk.chunk_id).Nodup := ((hperm.map Chunk.chunk_id).nodup_iff).mpr hrestnd
  have hmc : must_collect (chunks.filter (fun c => c.must_include)) [] [] =
      (chunks.filter (fun c => c.must_include),
       (chunks.filter (fun c => c.must_include)).map Chunk.chunk_id) := by
    rw [must_collect_eq (chunks.filter (fun c => c.must_include)) [] [] hmustnd (by simp)]
    simp
  have hts : topk_selection chunks =
      topk_pick (topk_k chunks.length)
        (sort_by chunk_rest_le (chunks.filter (fun c => !c.must_include)))
        (chunks.filter (fun c => c.must_include))
        ((chunks.filter (fun c => c.must_include)).map Chunk.chunk_id) := by
    unfold topk_selection
    rw [hmc]
  have hdisj : ∀ x ∈ sort_by chunk_rest_le (chunks.filter (fun c => !c.must_include)),
      x.chunk_id ∉ (chunks.filter (fun c => c.must_include)).map Chunk.chunk_id := by
    intro x hx
    rw [mem_sort_by] at hx
    exact filter_ids_disjoint chunks hids x hx
  have hsel : select_topk_chunks chunks =
      (sort_by chunk_sel_le (topk_selection chunks).1,
       sort_by chunk_skip_le
         (chunks.filter (fun c => decide (c.chunk_id ∉ (topk_selection chunks).2)))) := by
    unfold select_topk_chunks
    rw [if_neg hne, if_neg (by simp only [INTENT_CHUNK_TOPK_DISABLE_BELOW] at hn4 ⊢; omega)]
  refine ⟨?_, ?_, hclamp⟩
  · intro c hc hmust
    rw [hsel]
    simp only [mem_sort_by]
    rw [hts]
    exact topk_pick_sel_subset _ _ _ _ c (List.mem_filter.mpr ⟨hc, hmust⟩)
  · rw [hsel]
    simp only [sort_by_length]
    rw [hts]
    rw [topk_pick_length (topk_k chunks.length) hk0
      (sort_by chunk_rest_le (chunks.filter (fun c => !c.must_include)))
      (chunks.filter (fun c => c.must_include))
      ((chunks.filter (fun c => c.must_include)).map Chunk.chunk_id) hsortnd hdisj]
    have hlen : (sort_by chunk_rest_le (chunks.filter (fun c => !c.must_include))).length
        = (chunks.filter (fun c => !c.must_include)).length := sort_by_length _ _
    rw [hlen]
    have hpart := filter_length_partition (fun c => c.must_include) chunks
    omega

/-- Five chunks, two of which carry strong-danger hits. -/
def w9_chunks : List Chunk :=
  [{ chunk_id := "a:1", score := 5, changed_lines := 9, must_include := true },
   { chunk_id := "b:1", score := 4, changed_lines := 8, must_include := false },
   { chunk_id := "c:1", score := 3, changed_lines := 7, must_include := true },
   { chunk_id := "d:1", score := 2, changed_lines := 6, must_include := false },
   { chunk_id := "e:1", score := 1, changed_lines := 5, must_include := false }]

/-- Witness for C9's amended statement at five chunks with two
must-include chunks. -/
theorem c9_witness :
    INTENT_CHUNK_TOPK_DISABLE_BELOW ≤ w9_chunks.length ∧
    (w9_chunks.map Chunk.chunk_id).Nodup ∧
    ((∀ c ∈ w9_chunks, c.must_include = true → c ∈ (select_topk_chunks w9_chunks).1) ∧
    (select_topk_chunks w9_chunks).1.length =
      max (topk_k w9_chunks.length).toNat
        (w9_chunks.filter (fun c => c.must_include)).length ∧
    topk_k w9_chunks.length =
      min 10 (max 4 (Rat.ceil (qmul (mkRat (w9_chunks.length : Int) 1)
        intent_chunk_topk_fraction)))) :=
  ⟨by decide, by decide, c9_topk_selected w9_chunks (by decide) (by decide)⟩

end CodeReview
